import Mathlib

/-!
# Preview editor window (`src/app/ui/preview_editor.cpp`)

A shallow embedding of `MiniPlayButton` and `PreviewEditorWindow`.

* Pointers are natural-number identities; a nullable pointer is an `Option`.
* The window is a record of its C++ members plus the toolkit's visibility flag
  and a ghost `log` of the calls it makes on its collaborators, oldest first.
* The classes `Editor`, `DocumentView`, `ui::Window` and `gfx::Rect` are
  declared in other files of the repository; the members used here are
  modelled from the specification and marked as such.
* Window geometry (`onProcessMessage`, `onSetDecorativeWidgetBounds`) is not
  tracked.
-/

namespace PreviewEditor

/-! ## Data model -/

/-- The C++ `doc::frame_t` (an `int`). -/
abbrev frame_t := Int

/-- The `double` speed multiplier, carried as an uninterpreted code: the
window only stores and copies it. -/
abbrev AniSpeed := Nat

/-- The C++ `gfx::Point`. -/
structure Point where
  x : Int
  y : Int
deriving DecidableEq, Repr

/-- The C++ `gfx::Rect`. -/
structure Rect where
  x : Int
  y : Int
  w : Int
  h : Int
deriving DecidableEq, Repr

/-- Modelled from the spec: `gfx::Rect::center()` (gfx/rect.h is absent), "the
primary's visible-bounds midpoint (in sprite coordinates)", that is
`(x + w/2, y + h/2)` with C++ integer division (rounding toward zero). The
sums are taken in the integers: an overflowing `int` sum is undefined in C++. -/
def Rect.center (r : Rect) : Point :=
  ⟨r.x + r.w.tdiv 2, r.y + r.h.tdiv 2⟩

/-- The dynamic type of an `EditorState` object, as far as this file
distinguishes it: `NavigateState`, `PlayState` (with its play-once flag), or
any other state class. -/
inductive EditorState where
  | navigate
  | play (playOnce : Bool)
  | other
deriving DecidableEq, Repr

/-- What this file reads from and writes to an `Editor` object. `addr` is the
pointer identity; `observed` tells whether the preview window is registered
in the editor's observer list; `centeredAt` is the argument of the last
`centerInSpritePoint` call. -/
structure Editor where
  addr : Nat
  document : Option Nat
  layer : Option Nat
  frame : frame_t
  zoom : Nat × Nat
  state : Option EditorState
  aniSpeed : AniSpeed
  isActive : Bool
  visibleSpriteBounds : Rect
  centeredAt : Option Point
  observed : Bool
deriving DecidableEq, Repr

/-- Modelled from the spec: `Editor::sprite()` (editor.h is absent); the sprite
is the one of the editor's document, so it is identified with the document. -/
def Editor.sprite (e : Editor) : Option Nat := e.document

/-- Modelled from the spec: `Editor::isPlaying()` (editor.cpp is absent), the
editor is in a "playing" state. -/
def Editor.isPlaying (e : Editor) : Bool :=
  match e.state with
  | some (.play _) => true
  | _ => false

/-- Modelled from the spec: `Editor::stop()` (editor.cpp is absent), which
leaves the playing state; an editor that is not playing is left alone. -/
def Editor.stop (e : Editor) : Editor :=
  if e.isPlaying then { e with state := some .navigate } else e

/-- Modelled from the spec: `Editor::play(playOnce)` (editor.cpp is absent),
which (re)starts playback: the editor enters the playing state with the given
policy. -/
def Editor.play (e : Editor) (playOnce : Bool) : Editor :=
  { e with state := some (.play playOnce) }

/-- The C++ `DocumentView`, which owns its editor. -/
structure DocumentView where
  editor : Editor
deriving DecidableEq, Repr

/-- Modelled from the spec: `new DocumentView(document, DocumentView::Preview)`
(document_view.cpp is absent), a view that "owns a secondary editor instance
bound to the same underlying document"; every other attribute starts
at a default and nobody observes the new editor yet. -/
def DocumentView.new (document : Option Nat) : DocumentView :=
  { editor :=
      { addr := 0, document := document, layer := none, frame := 0,
        zoom := (1, 1), state := some .other, aniSpeed := 0, isActive := false,
        visibleSpriteBounds := ⟨0, 0, 0, 0⟩, centeredAt := none,
        observed := false } }

/-- The three skin parts installed on the play button by `setupIcons`. -/
inductive IconSet where
  | playButton
  | stopButton
deriving DecidableEq, Repr

/-- The class `MiniCenterButton`: a check box; only its selection matters. -/
structure MiniCenterButton where
  selected : Bool
deriving DecidableEq, Repr

/-- The class `MiniPlayButton`: its member `m_isPlaying`, the installed parts,
and the toolkit flags `isSelected()` and `hasCapture()`. -/
structure MiniPlayButton where
  m_isPlaying : Bool
  parts : IconSet
  selected : Bool
  hasCapture : Bool
deriving DecidableEq, Repr

/-- A widget as seen through `ev.getSource()`: whether `dynamic_cast<Button*>`
succeeds on it, and its `id()`. -/
structure Widget where
  isButton : Bool
  id : Nat
deriving DecidableEq, Repr

/-- The calls the window makes on its collaborators. -/
inductive Event where
  | openWindow
  | closeWindow
  | toolBarInvalidate
  | removeObserver
  | deleteDocView
  | newDocumentView (document : Option Nat)
  | addChild
  | setZoom (num den : Nat)
  | setLayer (layer : Option Nat)
  | setFrame (frame : frame_t)
  | setState (state : EditorState)
  | setAnimationSpeedMultiplier (speed : AniSpeed)
  | addObserver
  | layout
  | centerInSpritePoint (p : Point)
  | stop
  | play (playOnce : Bool)
  | showAnimationSpeedMultiplierPopup
  | windowOnWindowResize
deriving DecidableEq, Repr

/-- The class `PreviewEditorWindow`: its members, the toolkit's `isVisible()`
flag and the ghost call log. -/
structure PreviewEditorWindow where
  m_isEnabled : Bool
  m_docView : Option DocumentView
  m_centerButton : MiniCenterButton
  m_playButton : MiniPlayButton
  m_refFrame : frame_t
  m_aniSpeed : AniSpeed
  m_relatedEditor : Option Nat
  visible : Bool
  log : List Event
deriving DecidableEq, Repr

/-- The collaborators' answers during one call: the global `current_editor`,
the editor of `UIContext::instance()->activeView()`, the preference
`preview.playOnce()`, the function `get_animation_tag` (loop_tag.cpp is
absent; taken as given), the constant `SkinTheme::kThemeCloseButtonId`, the
speed picked in the speed popup (none when it is dismissed), and whether the editor delivers
`onStateChanged` to its observers from inside `setState`/`stop`/`play`. -/
structure Host where
  current_editor : Option Editor
  activeView : Option Editor
  playOnce : Bool
  get_animation_tag : Option Nat → frame_t → Option Nat
  kThemeCloseButtonId : Nat
  popupSpeed : Option AniSpeed
  notifiesInline : Bool

/-! ## `MiniCenterButton` and `MiniPlayButton` -/

/-- The constructor `MiniCenterButton()`, which ends in `setSelected(true)`. -/
def MiniCenterButton.init : MiniCenterButton := { selected := true }

/-- `MiniPlayButton::isPlaying`. -/
def MiniPlayButton.isPlaying (b : MiniPlayButton) : Bool := b.m_isPlaying

/-- `MiniPlayButton::setupIcons`. -/
def MiniPlayButton.setupIcons (b : MiniPlayButton) : MiniPlayButton :=
  if b.m_isPlaying then { b with parts := .stopButton }
  else { b with parts := .playButton }

/-- The constructor `MiniPlayButton()`. -/
def MiniPlayButton.init : MiniPlayButton :=
  MiniPlayButton.setupIcons
    { m_isPlaying := false, parts := .playButton, selected := false,
      hasCapture := false }

/-- `MiniPlayButton::stop`. -/
def MiniPlayButton.stop (b : MiniPlayButton) : MiniPlayButton :=
  MiniPlayButton.setupIcons { b with m_isPlaying := false }

/-- `MiniPlayButton::onClick`, up to the call of the base `onClick` (which
emits the `Click` signal). -/
def MiniPlayButton.onClick (b : MiniPlayButton) : MiniPlayButton :=
  MiniPlayButton.setupIcons { b with m_isPlaying := !b.m_isPlaying }

/-- A toolkit message, as far as `onProcessMessage` inspects it. -/
inductive Message where
  | setCursor
  | mouseUp (right : Bool)
  | other (type : Nat)
deriving DecidableEq, Repr

/-- What one `onProcessMessage` call of the play button does besides changing
the button's own fields. -/
inductive ButtonEffect where
  | setMouseCursor
  | releaseMouse
  | popup
  | setSelected (state : Bool)
  | baseProcessMessage (msg : Message)
  | baseOnClick
deriving DecidableEq, Repr

/-- The outcome of the base handler `SkinButton<Button>::onProcessMessage`
(skin_button.h and ui/button.cpp are absent; taken as given): the toolkit
flags it leaves, whether it invoked the virtual `onClick`, and its result. -/
structure BaseOutcome where
  hasCapture : Bool
  selected : Bool
  clicked : Bool
  handled : Bool
deriving DecidableEq, Repr

/-- The tail of `MiniPlayButton::onProcessMessage`: the forward to the base
handler. -/
def MiniPlayButton.baseOnProcessMessage
    (base : Message → MiniPlayButton → BaseOutcome)
    (b : MiniPlayButton) (msg : Message) :
    MiniPlayButton × List ButtonEffect × Bool :=
  let o := base msg b
  let b1 := { b with hasCapture := o.hasCapture, selected := o.selected }
  if o.clicked then
    (MiniPlayButton.onClick b1, [.baseProcessMessage msg, .baseOnClick], o.handled)
  else
    (b1, [.baseProcessMessage msg], o.handled)

/-- `MiniPlayButton::onProcessMessage`: the button afterwards, the effects in
order, and the returned flag. -/
def MiniPlayButton.onProcessMessage
    (base : Message → MiniPlayButton → BaseOutcome)
    (b : MiniPlayButton) (msg : Message) :
    MiniPlayButton × List ButtonEffect × Bool :=
  match msg with
  | .setCursor => (b, [.setMouseCursor], true)
  | .mouseUp right =>
    if right then
      if b.hasCapture then
        ({ b with hasCapture := false, selected := false },
          [.releaseMouse, .popup, .setSelected false], true)
      else MiniPlayButton.baseOnProcessMessage base b msg
    else MiniPlayButton.baseOnProcessMessage base b msg
  | .other _ => MiniPlayButton.baseOnProcessMessage base b msg

/-! ## `PreviewEditorWindow` -/

/-- The constructor `PreviewEditorWindow()`; `configEnabled` is the value read
by `get_config_bool("MiniEditor", "Enabled", true)`. A toolkit window starts
closed. -/
def PreviewEditorWindow.init (configEnabled : Bool) : PreviewEditorWindow :=
  { m_isEnabled := configEnabled, m_docView := none,
    m_centerButton := MiniCenterButton.init, m_playButton := MiniPlayButton.init,
    m_refFrame := 0, m_aniSpeed := 1, m_relatedEditor := none,
    visible := false, log := [] }

/-- The expression `m_docView ? m_docView->getEditor() : nullptr`. -/
def miniEditorOf (w : PreviewEditorWindow) : Option Editor :=
  w.m_docView.map (fun v => v.editor)

/-- `PreviewEditorWindow::onStateChanged`. -/
def onStateChanged (w : PreviewEditorWindow) (editor : Editor) :
    PreviewEditorWindow :=
  match editor.state with
  | some (.play _) => w
  | _ => { w with m_playButton := w.m_playButton.stop }

/-- Modelled from the spec: the editor's observer notification (editor.cpp is
absent), "fired by the secondary editor whenever its internal state machine
transitions", delivered to the window when it is registered as an observer. -/
def notifyStateChanged (h : Host) (w : PreviewEditorWindow) :
    PreviewEditorWindow :=
  match w.m_docView with
  | none => w
  | some v =>
    if h.notifiesInline && v.editor.observed then onStateChanged w v.editor
    else w

/-- A member call `miniEditor->f(...)` on the secondary editor: the editor
changes and the call is logged. Without a view there is no editor to call;
the source guards every such call, so that branch is never taken. -/
def callMini (w : PreviewEditorWindow) (ev : Event) (f : Editor → Editor) :
    PreviewEditorWindow :=
  match w.m_docView with
  | none => w
  | some v =>
    { w with m_docView := some { v with editor := f v.editor },
             log := w.log ++ [ev] }

/-- The call `miniEditor->stop()`. -/
def miniStop (h : Host) (w : PreviewEditorWindow) : PreviewEditorWindow :=
  let wasPlaying := (miniEditorOf w).any Editor.isPlaying
  let w1 := callMini w .stop Editor.stop
  if wasPlaying then notifyStateChanged h w1 else w1

/-- The call `miniEditor->play(playOnce)`. -/
def miniPlay (h : Host) (w : PreviewEditorWindow) (playOnce : Bool) :
    PreviewEditorWindow :=
  notifyStateChanged h (callMini w (.play playOnce) (fun e => e.play playOnce))

/-- The call `miniEditor->setState(EditorStatePtr(new NavigateState))`. -/
def miniSetState (h : Host) (w : PreviewEditorWindow) (s : EditorState) :
    PreviewEditorWindow :=
  notifyStateChanged h
    (callMini w (.setState s) (fun e => { e with state := some s }))

/-- `PreviewEditorWindow::destroyDocView`. -/
def destroyDocView (w : PreviewEditorWindow) : PreviewEditorWindow :=
  match w.m_docView with
  | some _ =>
    { w with m_docView := none,
             log := w.log ++ [.removeObserver, .deleteDocView] }
  | none => w

/-- `PreviewEditorWindow::onClose`; `source` is `ev.getSource()`. -/
def onClose (h : Host) (w : PreviewEditorWindow) (source : Option Widget) :
    PreviewEditorWindow :=
  match source with
  | none => w
  | some closeButton =>
    if closeButton.isButton && closeButton.id == h.kThemeCloseButtonId then
      destroyDocView
        { w with m_isEnabled := false, log := w.log ++ [.toolBarInvalidate] }
    else w

/-- Modelled from the spec: `ui::Window::openWindow()` (ui/window.cpp is
absent); the window is shown. -/
def openWindow (w : PreviewEditorWindow) : PreviewEditorWindow :=
  { w with visible := true, log := w.log ++ [.openWindow] }

/-- Modelled from the spec: `ui::Window::closeWindow(closer)` (ui/window.cpp is
absent); the window is hidden and the close event, whose source is `closer`,
is delivered to `onClose`. -/
def closeWindow (h : Host) (w : PreviewEditorWindow) (closer : Option Widget) :
    PreviewEditorWindow :=
  onClose h { w with visible := false, log := w.log ++ [.closeWindow] } closer

/-- `PreviewEditorWindow::hideWindow`. -/
def hideWindow (h : Host) (w : PreviewEditorWindow) : PreviewEditorWindow :=
  let w1 := destroyDocView w
  if w1.visible then closeWindow h w1 none else w1

/-- The block of `updateUsingEditor` that replaces the secondary view
(lines 332-345, without the final `center = true`). -/
def recreateDocView (h : Host) (w : PreviewEditorWindow) (editor : Editor) :
    PreviewEditorWindow :=
  let w := destroyDocView w
  let w := { w with m_docView := some (DocumentView.new editor.document),
                    log := w.log ++ [.newDocumentView editor.document, .addChild] }
  let w := callMini w (.setZoom 1 1) (fun e => { e with zoom := (1, 1) })
  let w := callMini w (.setLayer editor.layer)
    (fun e => { e with layer := editor.layer })
  let w := callMini w (.setFrame editor.frame)
    (fun e => { e with frame := editor.frame })
  let w := miniSetState h w .navigate
  let w := callMini w (.setAnimationSpeedMultiplier w.m_aniSpeed)
    (fun e => { e with aniSpeed := w.m_aniSpeed })
  let w := callMini w .addObserver (fun e => { e with observed := true })
  { w with log := w.log ++ [.layout] }

/-- Lines 357-362 of `updateUsingEditor`: a running secondary animation is
stopped when the tag at the primary's frame is not the tag at `m_refFrame`. -/
def stopOnTagChange (h : Host) (w : PreviewEditorWindow) (editor : Editor) :
    PreviewEditorWindow :=
  if (miniEditorOf w).any Editor.isPlaying then
    let tag := h.get_animation_tag editor.sprite editor.frame
    let playingTag := h.get_animation_tag editor.sprite w.m_refFrame
    if tag != playingTag then miniStop h w else w
  else w

/-- Lines 364-365 of `updateUsingEditor`:
`miniEditor->setFrame(m_refFrame = editor->frame())` when the secondary editor
is not playing. -/
def restartFrame (w : PreviewEditorWindow) (editor : Editor) :
    PreviewEditorWindow :=
  if !(miniEditorOf w).any Editor.isPlaying then
    callMini { w with m_refFrame := editor.frame } (.setFrame editor.frame)
      (fun e => { e with frame := editor.frame })
  else w

/-- The last statement group of `updateUsingEditor` (lines 351-368). -/
def mirrorOrPlay (h : Host) (w : PreviewEditorWindow) (editor : Editor) :
    PreviewEditorWindow :=
  if !w.m_playButton.isPlaying then
    let w := miniStop h w
    let w := callMini w (.setLayer editor.layer)
      (fun e => { e with layer := editor.layer })
    callMini w (.setFrame editor.frame)
      (fun e => { e with frame := editor.frame })
  else
    let w := stopOnTagChange h w editor
    let w := restartFrame w editor
    miniPlay h w h.playOnce

/-- Lines 318-349 of `updateUsingEditor`: the primary editor is recorded, the
window is shown, the secondary view is replaced when it is missing or bound to
another document, and the secondary editor is centred. -/
def syncDocView (h : Host) (w : PreviewEditorWindow) (editor : Editor) :
    PreviewEditorWindow :=
  let w := { w with m_relatedEditor := some editor.addr }
  let document := editor.document
  let miniEditor := miniEditorOf w
  let w := if !w.visible then openWindow w else w
  let visibleBounds := editor.visibleSpriteBounds
  let centerPoint := visibleBounds.center
  let center := w.m_centerButton.selected
  let stale :=
    match miniEditor with
    | none => true
    | some m => m.document != document
  let w := if stale then recreateDocView h w editor else w
  let center := if stale then true else center
  if center then
    callMini w (.centerInSpritePoint centerPoint)
      (fun e => { e with centeredAt := some centerPoint })
  else w

/-- `PreviewEditorWindow::updateUsingEditor`; a null `editor` is `none`. -/
def updateUsingEditor (h : Host) (w : PreviewEditorWindow)
    (editor : Option Editor) : PreviewEditorWindow :=
  match editor with
  | none => { hideWindow h w with m_relatedEditor := none }
  | some editor =>
    if !w.m_isEnabled then { hideWindow h w with m_relatedEditor := none }
    else if !editor.isActive then w
    else mirrorOrPlay h (syncDocView h w editor) editor

/-- `PreviewEditorWindow::setPreviewEnabled`. -/
def setPreviewEnabled (h : Host) (w : PreviewEditorWindow) (state : Bool) :
    PreviewEditorWindow :=
  updateUsingEditor h { w with m_isEnabled := state } h.current_editor

/-- `PreviewEditorWindow::onWindowResize`. -/
def onWindowResize (h : Host) (w : PreviewEditorWindow) : PreviewEditorWindow :=
  let w := { w with log := w.log ++ [.windowOnWindowResize] }
  match h.activeView with
  | some editor => updateUsingEditor h w (some editor)
  | none => w

/-- `PreviewEditorWindow::onCenterClicked`. -/
def onCenterClicked (h : Host) (w : PreviewEditorWindow) : PreviewEditorWindow :=
  if w.m_centerButton.selected then
    match h.activeView with
    | some editor => updateUsingEditor h w (some editor)
    | none => w
  else w

/-- `PreviewEditorWindow::onPlayClicked`. -/
def onPlayClicked (h : Host) (w : PreviewEditorWindow) : PreviewEditorWindow :=
  match miniEditorOf w with
  | none => w
  | some miniEditor =>
    if miniEditor.document.isNone then w
    else if w.m_playButton.isPlaying then
      miniPlay h { w with m_refFrame := miniEditor.frame } h.playOnce
    else miniStop h w

/-- `PreviewEditorWindow::onPopupSpeed`; the popup leaves the speed picked by
the user, if any, in the secondary editor. -/
def onPopupSpeed (h : Host) (w : PreviewEditorWindow) : PreviewEditorWindow :=
  match miniEditorOf w with
  | none => w
  | some miniEditor =>
    if miniEditor.document.isNone then w
    else
      let w := callMini w .showAnimationSpeedMultiplierPopup
        (fun e => { e with aniSpeed := h.popupSpeed.getD e.aniSpeed })
      match miniEditorOf w with
      | none => w
      | some shown => { w with m_aniSpeed := shown.aniSpeed }

/-- `PreviewEditorWindow::uncheckCenterButton`. -/
def uncheckCenterButton (w : PreviewEditorWindow) : PreviewEditorWindow :=
  if w.m_centerButton.selected then
    { w with m_centerButton := { w.m_centerButton with selected := false } }
  else w

/-- A click on the center button: the toolkit toggles the check box and emits
`Click`, which is connected to `onCenterClicked`. -/
def centerButtonClick (h : Host) (w : PreviewEditorWindow) : PreviewEditorWindow :=
  onCenterClicked h
    { w with m_centerButton :=
        { w.m_centerButton with selected := !w.m_centerButton.selected } }

/-- The slot connected in the constructor to a signal of the play button:
`Popup` runs `onPopupSpeed`, and the base `onClick` emits `Click`, which runs
`onPlayClicked`. -/
def playButtonSlot (h : Host) (w : PreviewEditorWindow) :
    ButtonEffect → PreviewEditorWindow
  | .popup => onPopupSpeed h w
  | .baseOnClick => onPlayClicked h w
  | _ => w

/-- A message delivered to the play button of the window: the button processes
it and the connected slots run. -/
def playButtonMessage (h : Host) (w : PreviewEditorWindow)
    (base : Message → MiniPlayButton → BaseOutcome) (msg : Message) :
    PreviewEditorWindow :=
  let r := w.m_playButton.onProcessMessage base msg
  r.2.1.foldl (playButtonSlot h) { w with m_playButton := r.1 }

/-- The secondary editor moves on its own (animation timer, end of a play-once
pass, user input in the preview): it takes a new frame and state and notifies
its observers. -/
def miniEditorTick (h : Host) (w : PreviewEditorWindow) (frame : frame_t)
    (state : EditorState) : PreviewEditorWindow :=
  match w.m_docView with
  | none => w
  | some v =>
    let moved : Editor := { v.editor with frame := frame, state := some state }
    notifyStateChanged h { w with m_docView := some { v with editor := moved } }

/-- The events that can reach the window. -/
inductive Op where
  | updateUsingEditor (editor : Option Editor)
  | setPreviewEnabled (state : Bool)
  | onClose (source : Option Widget)
  | onWindowResize
  | onCenterClicked
  | onPlayClicked
  | onStateChanged (editor : Editor)
  | onPopupSpeed
  | uncheckCenterButton
  | centerButtonClick
  | playButtonMessage (base : Message → MiniPlayButton → BaseOutcome)
      (msg : Message)
  | miniEditorTick (frame : frame_t) (state : EditorState)

/-- One event, with the host's answers at that moment. -/
def applyOp (h : Host) (w : PreviewEditorWindow) : Op → PreviewEditorWindow
  | .updateUsingEditor editor => updateUsingEditor h w editor
  | .setPreviewEnabled state => setPreviewEnabled h w state
  | .onClose source => onClose h w source
  | .onWindowResize => onWindowResize h w
  | .onCenterClicked => onCenterClicked h w
  | .onPlayClicked => onPlayClicked h w
  | .onStateChanged editor => onStateChanged w editor
  | .onPopupSpeed => onPopupSpeed h w
  | .uncheckCenterButton => uncheckCenterButton w
  | .centerButtonClick => centerButtonClick h w
  | .playButtonMessage base msg => playButtonMessage h w base msg
  | .miniEditorTick frame state => miniEditorTick h w frame state

/-- A history: the events in order, each with the host's answers. -/
def run (w : PreviewEditorWindow) (steps : List (Host × Op)) :
    PreviewEditorWindow :=
  steps.foldl (fun w s => applyOp s.1 w s.2) w

/-- The primary editors met in a step carry the document that the fixed
assignment `documentOf` gives to their address. -/
def StepOk (documentOf : Nat → Option Nat) (s : Host × Op) : Prop :=
  (∀ e, s.1.current_editor = some e → e.document = documentOf e.addr) ∧
  (∀ e, s.1.activeView = some e → e.document = documentOf e.addr) ∧
  (∀ e, s.2 = .updateUsingEditor (some e) → e.document = documentOf e.addr)

/-- The invariant of the secondary view: when it exists the window is enabled,
a primary editor is tracked, and the view is bound to that editor's document. -/
def Inv (documentOf : Nat → Option Nat) (w : PreviewEditorWindow) : Prop :=
  ∀ v, w.m_docView = some v →
    w.m_isEnabled = true ∧
    ∃ a, w.m_relatedEditor = some a ∧ v.editor.document = documentOf a

/-- The number of `DocumentView` objects alive after a list of calls, starting
from `n` live ones; `none` when a view is constructed while another one is
alive, or a view is deleted while none is alive. -/
def liveViews : Nat → List Event → Option Nat
  | n, [] => some n
  | n, e :: l =>
    match e with
    | .newDocumentView _ => if n = 0 then liveViews 1 l else none
    | .deleteDocView => if n = 1 then liveViews 0 l else none
    | _ => liveViews n l

/-- The number of views the window owns: one when `m_docView` is set. -/
def ownedViews (w : PreviewEditorWindow) : Nat :=
  if w.m_docView.isSome then 1 else 0

/-- A step whose calls construct and delete views in step with `m_docView`. -/
def Balanced (w w' : PreviewEditorWindow) : Prop :=
  ∃ l, w'.log = w.log ++ l ∧ liveViews (ownedViews w) l = some (ownedViews w')

/-! ## Sample data -/

/-- A tag table: tag 1 covers frames 0-9 and tag 2 covers frames 10-19. -/
def sampleTags : Option Nat → frame_t → Option Nat :=
  fun _ f =>
    if 0 ≤ f ∧ f ≤ 9 then some 1
    else if 10 ≤ f ∧ f ≤ 19 then some 2
    else none

/-- A host with the play-once preference set and no editor of its own. -/
def sampleHost : Host :=
  { current_editor := none, activeView := none, playOnce := true,
    get_animation_tag := sampleTags, kThemeCloseButtonId := 7, popupSpeed := some 2,
    notifiesInline := true }

/-- An active primary editor on document 1, layer 4, at the given frame. -/
def samplePrimary (frame : frame_t) : Editor :=
  { addr := 100, document := some 1, layer := some 4, frame := frame,
    zoom := (2, 1), state := some .other, aniSpeed := 1, isActive := true,
    visibleSpriteBounds := ⟨10, 20, 31, 41⟩, centeredAt := none,
    observed := false }

/-- An active primary editor on document 2. -/
def sampleOtherPrimary : Editor :=
  { samplePrimary 3 with addr := 101, document := some 2 }

/-- The document of each sample primary editor, by address. -/
def sampleDocumentOf : Nat → Option Nat :=
  fun a => if a = 100 then some 1 else if a = 101 then some 2 else none

/-- A freshly constructed, enabled window. -/
def sampleWindow : PreviewEditorWindow := PreviewEditorWindow.init true

/-- A freshly constructed, enabled window whose play button was clicked. -/
def samplePlayingWindow : PreviewEditorWindow :=
  { PreviewEditorWindow.init true with
    m_playButton := MiniPlayButton.onClick MiniPlayButton.init }

/-- A disabled window that still shows a view. -/
def sampleDisabledWindow : PreviewEditorWindow :=
  { PreviewEditorWindow.init false with
    m_docView := some (DocumentView.new (some 1)), visible := true }

/-- A base handler that only reports the message as not handled. -/
def sampleBase : Message → MiniPlayButton → BaseOutcome :=
  fun _ b =>
    { hasCapture := b.hasCapture, selected := b.selected, clicked := false,
      handled := false }

/-- A history: a sync with the editor on document 1, then one with the editor on
document 2. -/
def sampleHistory : List (Host × Op) :=
  [(sampleHost, .updateUsingEditor (some (samplePrimary 3))),
    (sampleHost, .updateUsingEditor (some sampleOtherPrimary))]

/-- The window after a first sync at frame 5 with the play button on. -/
def sampleSyncedWindow : PreviewEditorWindow :=
  updateUsingEditor sampleHost samplePlayingWindow (some (samplePrimary 5))

/-- The events a call appended to the log: the log afterwards without the
entries that were there before. -/
def callLog (before after : PreviewEditorWindow) : List Event :=
  after.log.drop before.log.length

/-- The events `destroyDocView` emits from a given state. -/
def destroyEvents (w : PreviewEditorWindow) : List Event :=
  if w.m_docView.isSome then [.removeObserver, .deleteDocView] else []

/-- A finite sequence of `updateUsingEditor` calls, each with the host's
answers at that moment and its editor argument. -/
def updateUsingEditorSeq (w : PreviewEditorWindow)
    (calls : List (Host × Option Editor)) : PreviewEditorWindow :=
  calls.foldl (fun w c => updateUsingEditor c.1 w c.2) w

/-- The events of lines 351-368: calls that mirror or animate the secondary
editor. -/
def Event.isMirrorCall : Event → Bool
  | .stop => true
  | .setLayer _ => true
  | .setFrame _ => true
  | .play _ => true
  | _ => false

/-- What a mirroring step keeps: the window's flags and buttons apart from the
play button, the secondary view's existence, document and centre, and the log
up to mirror calls appended at its end. -/
structure Kept (w w' : PreviewEditorWindow) : Prop where
  enabled : w'.m_isEnabled = w.m_isEnabled
  related : w'.m_relatedEditor = w.m_relatedEditor
  visible : w'.visible = w.visible
  center : w'.m_centerButton = w.m_centerButton
  speed : w'.m_aniSpeed = w.m_aniSpeed
  doc : w'.m_docView.map (fun v => v.editor.document) =
    w.m_docView.map (fun v => v.editor.document)
  centered : w'.m_docView.map (fun v => v.editor.centeredAt) =
    w.m_docView.map (fun v => v.editor.centeredAt)
  log : ∃ l, w'.log = w.log ++ l ∧ ∀ e ∈ l, e.isMirrorCall = true

/-- The event `openWindow` when the window is not visible yet. -/
def openEvents (w : PreviewEditorWindow) : List Event :=
  if w.visible then [] else [.openWindow]

/-- The calls of lines 334-344, from the construction of the new view on. -/
def createEvents (w : PreviewEditorWindow) (ed : Editor) : List Event :=
  [.newDocumentView ed.document, .addChild, .setZoom 1 1, .setLayer ed.layer,
    .setFrame ed.frame, .setState .navigate,
    .setAnimationSpeedMultiplier w.m_aniSpeed, .addObserver, .layout]

/-- The secondary editor as lines 334-349 leave it after a replacement. -/
def createdEditor (w : PreviewEditorWindow) (ed : Editor) : Editor :=
  { (DocumentView.new ed.document).editor with
    zoom := (1, 1), layer := ed.layer, frame := ed.frame,
    state := some .navigate, aniSpeed := w.m_aniSpeed, observed := true,
    centeredAt := some ed.visibleSpriteBounds.center }

/-! ## Basic facts -/

theorem destroyDocView_eq (w : PreviewEditorWindow) :
    destroyDocView w =
      { w with m_docView := none, log := w.log ++ destroyEvents w } := by
  unfold destroyDocView destroyEvents
  cases hv : w.m_docView <;> simp
  cases w; simp_all

theorem hideWindow_eq (h : Host) (w : PreviewEditorWindow) :
    hideWindow h w =
      { w with m_docView := none, visible := false,
               log := w.log ++ destroyEvents w ++
                 (if w.visible then [.closeWindow] else []) } := by
  simp only [hideWindow, destroyDocView_eq, closeWindow, onClose]
  cases hv : w.visible <;> simp

theorem updateUsingEditor_disabled (h : Host) (w : PreviewEditorWindow)
    (editor : Option Editor) (hd : w.m_isEnabled = false) :
    updateUsingEditor h w editor =
      { w with m_docView := none, visible := false, m_relatedEditor := none,
               log := w.log ++ destroyEvents w ++
                 (if w.visible then [.closeWindow] else []) } := by
  cases editor <;> simp [updateUsingEditor, hideWindow_eq, hd]

theorem callLog_append (w w' : PreviewEditorWindow) (l : List Event)
    (hl : w'.log = w.log ++ l) : callLog w w' = l := by
  simp [callLog, hl]

theorem destroyEvents_mem (w : PreviewEditorWindow) (e : Event)
    (he : e ∈ destroyEvents w) : e = .removeObserver ∨ e = .deleteDocView := by
  unfold destroyEvents at he
  split at he <;> simp at he
  exact he

theorem updateUsingEditorSeq_disabled (calls : List (Host × Option Editor)) :
    ∀ w : PreviewEditorWindow, w.m_isEnabled = false →
      (updateUsingEditorSeq w calls).m_isEnabled = false ∧
      (∃ l, (updateUsingEditorSeq w calls).log = w.log ++ l ∧
        ∀ e ∈ l, e = .removeObserver ∨ e = .deleteDocView ∨ e = .closeWindow) ∧
      (calls ≠ [] →
        (updateUsingEditorSeq w calls).m_docView = none ∧
        (updateUsingEditorSeq w calls).visible = false ∧
        (updateUsingEditorSeq w calls).m_relatedEditor = none) := by
  induction calls using List.reverseRecOn with
  | nil =>
    intro w hd
    exact ⟨hd, ⟨[], by simp [updateUsingEditorSeq], by simp⟩, by simp⟩
  | append_singleton cs c ih =>
    intro w hd
    obtain ⟨hd', ⟨l, hl, hmem⟩, -⟩ := ih w hd
    have hstep : updateUsingEditorSeq w (cs ++ [c]) =
        updateUsingEditor c.1 (updateUsingEditorSeq w cs) c.2 := by
      simp [updateUsingEditorSeq]
    rw [hstep, updateUsingEditor_disabled _ _ _ hd']
    refine ⟨hd', ⟨l ++ (destroyEvents (updateUsingEditorSeq w cs) ++
      (if (updateUsingEditorSeq w cs).visible then [.closeWindow] else [])), ?_, ?_⟩, ?_⟩
    · simp [hl]
    · intro e he
      rcases List.mem_append.1 he with h1 | h2
      · exact hmem e h1
      · rcases List.mem_append.1 h2 with h3 | h4
        · rcases destroyEvents_mem _ _ h3 with h5 | h5
          · exact Or.inl h5
          · exact Or.inr (Or.inl h5)
        · split at h4 <;> simp at h4
          exact Or.inr (Or.inr h4)
    · intro _
      exact ⟨rfl, rfl, rfl⟩

theorem setPreviewEnabled_false_eq (h : Host) (w : PreviewEditorWindow) :
    (setPreviewEnabled h w false).m_docView = none ∧
    (setPreviewEnabled h w false).log =
      w.log ++ destroyEvents w ++ (if w.visible then [.closeWindow] else []) := by
  have hd : ({ w with m_isEnabled := false } : PreviewEditorWindow).m_isEnabled
      = false := rfl
  simp only [setPreviewEnabled, updateUsingEditor_disabled _ _ _ hd, destroyEvents]
  simp

/-! ## The enabled path of `updateUsingEditor`, phase by phase -/

theorem Kept.same (w : PreviewEditorWindow) : Kept w w :=
  ⟨rfl, rfl, rfl, rfl, rfl, rfl, rfl, ⟨[], by simp, by simp⟩⟩

theorem Kept.step {a b c : PreviewEditorWindow} (h1 : Kept a b) (h2 : Kept b c) :
    Kept a c := by
  obtain ⟨l1, hl1, hm1⟩ := h1.log
  obtain ⟨l2, hl2, hm2⟩ := h2.log
  refine ⟨h2.enabled.trans h1.enabled, h2.related.trans h1.related,
    h2.visible.trans h1.visible, h2.center.trans h1.center,
    h2.speed.trans h1.speed, h2.doc.trans h1.doc,
    h2.centered.trans h1.centered, ⟨l1 ++ l2, ?_, ?_⟩⟩
  · rw [hl2, hl1, List.append_assoc]
  · intro e he
    rcases List.mem_append.1 he with h | h
    · exact hm1 e h
    · exact hm2 e h

theorem callMini_some (w : PreviewEditorWindow) (ev : Event)
    (f : Editor → Editor) (v : DocumentView) (hv : w.m_docView = some v) :
    callMini w ev f =
      { w with m_docView := some { editor := f v.editor },
               log := w.log ++ [ev] } := by
  simp [callMini, hv]

theorem callMini_none (w : PreviewEditorWindow) (ev : Event)
    (f : Editor → Editor) (hv : w.m_docView = none) : callMini w ev f = w := by
  simp [callMini, hv]

theorem callMini_kept (w : PreviewEditorWindow) (ev : Event)
    (f : Editor → Editor) (hev : ev.isMirrorCall = true)
    (hdoc : ∀ e, (f e).document = e.document)
    (hcen : ∀ e, (f e).centeredAt = e.centeredAt) :
    Kept w (callMini w ev f) := by
  cases hv : w.m_docView with
  | none => rw [callMini_none w ev f hv]; exact Kept.same w
  | some v =>
    rw [callMini_some w ev f v hv]
    exact ⟨rfl, rfl, rfl, rfl, rfl, by simp [hv, hdoc], by simp [hv, hcen],
      ⟨[ev], rfl, by simpa using hev⟩⟩

theorem onStateChanged_kept (w : PreviewEditorWindow) (editor : Editor) :
    Kept w (onStateChanged w editor) := by
  unfold onStateChanged
  split
  · exact Kept.same w
  · exact ⟨rfl, rfl, rfl, rfl, rfl, rfl, rfl, ⟨[], by simp, by simp⟩⟩

theorem notifyStateChanged_kept (h : Host) (w : PreviewEditorWindow) :
    Kept w (notifyStateChanged h w) := by
  unfold notifyStateChanged
  split
  · exact Kept.same w
  · split
    · exact onStateChanged_kept w _
    · exact Kept.same w

theorem Editor.stop_document (e : Editor) : e.stop.document = e.document := by
  unfold Editor.stop; split <;> rfl

theorem Editor.stop_centeredAt (e : Editor) : e.stop.centeredAt = e.centeredAt := by
  unfold Editor.stop; split <;> rfl

theorem Editor.stop_isPlaying (e : Editor) : e.stop.isPlaying = false := by
  unfold Editor.stop
  split
  · rfl
  · next hn => simpa using hn

theorem Editor.isPlaying_congr {a b : Editor} (hs : a.state = b.state) :
    a.isPlaying = b.isPlaying := by
  unfold Editor.isPlaying; rw [hs]

theorem Editor.isPlaying_stop_with (e : Editor) (l : Option Nat) (f : frame_t) :
    ({ e.stop with layer := l, frame := f } : Editor).isPlaying = false :=
  (Editor.isPlaying_congr rfl).trans (Editor.stop_isPlaying e)

theorem Editor.play_state (e : Editor) (once : Bool) :
    (e.play once).state = some (.play once) := rfl

theorem Editor.play_document (e : Editor) (once : Bool) :
    (e.play once).document = e.document := rfl

theorem Editor.play_centeredAt (e : Editor) (once : Bool) :
    (e.play once).centeredAt = e.centeredAt := rfl

theorem Editor.play_frame (e : Editor) (once : Bool) :
    (e.play once).frame = e.frame := rfl

theorem miniStop_kept (h : Host) (w : PreviewEditorWindow) :
    Kept w (miniStop h w) := by
  have hc : Kept w (callMini w .stop Editor.stop) :=
    callMini_kept w .stop Editor.stop rfl Editor.stop_document Editor.stop_centeredAt
  unfold miniStop
  simp only
  split
  · exact hc.step (notifyStateChanged_kept h _)
  · exact hc

theorem miniPlay_kept (h : Host) (w : PreviewEditorWindow) (once : Bool) :
    Kept w (miniPlay h w once) := by
  have hc : Kept w (callMini w (.play once) (fun e => e.play once)) :=
    callMini_kept w (.play once) _ rfl (fun e => Editor.play_document e once)
      (fun e => Editor.play_centeredAt e once)
  unfold miniPlay
  exact hc.step (notifyStateChanged_kept h _)

theorem setFrame_kept (w : PreviewEditorWindow) (f : frame_t) :
    Kept w (callMini w (.setFrame f) (fun e => { e with frame := f })) :=
  callMini_kept w _ _ rfl (fun _ => rfl) (fun _ => rfl)

theorem setLayer_kept (w : PreviewEditorWindow) (l : Option Nat) :
    Kept w (callMini w (.setLayer l) (fun e => { e with layer := l })) :=
  callMini_kept w _ _ rfl (fun _ => rfl) (fun _ => rfl)

theorem refFrame_kept (w : PreviewEditorWindow) (f : frame_t) :
    Kept w { w with m_refFrame := f } :=
  ⟨rfl, rfl, rfl, rfl, rfl, rfl, rfl, ⟨[], by simp, by simp⟩⟩

theorem stopOnTagChange_kept (h : Host) (w : PreviewEditorWindow) (ed : Editor) :
    Kept w (stopOnTagChange h w ed) := by
  unfold stopOnTagChange
  split
  · simp only
    split
    · exact miniStop_kept h w
    · exact Kept.same w
  · exact Kept.same w

theorem restartFrame_kept (w : PreviewEditorWindow) (ed : Editor) :
    Kept w (restartFrame w ed) := by
  unfold restartFrame
  split
  · exact (refFrame_kept _ _).step (setFrame_kept _ _)
  · exact Kept.same _

theorem mirrorOrPlay_kept (h : Host) (w : PreviewEditorWindow) (ed : Editor) :
    Kept w (mirrorOrPlay h w ed) := by
  unfold mirrorOrPlay
  split
  · exact ((miniStop_kept h w).step (setLayer_kept _ _)).step (setFrame_kept _ _)
  · exact ((stopOnTagChange_kept h w ed).step (restartFrame_kept _ ed)).step
      (miniPlay_kept h _ _)

theorem updateUsingEditor_enabled (h : Host) (w : PreviewEditorWindow)
    (ed : Editor) (he : w.m_isEnabled = true) (ha : ed.isActive = true) :
    updateUsingEditor h w (some ed) = mirrorOrPlay h (syncDocView h w ed) ed := by
  simp [updateUsingEditor, he, ha]

theorem recreateDocView_eq (h : Host) (w : PreviewEditorWindow) (ed : Editor) :
    recreateDocView h w ed =
      { w with
        m_docView := some
          { editor :=
              { (DocumentView.new ed.document).editor with
                zoom := (1, 1), layer := ed.layer, frame := ed.frame,
                state := some .navigate, aniSpeed := w.m_aniSpeed,
                observed := true } },
        log := w.log ++ destroyEvents w ++ createEvents w ed } := by
  simp [recreateDocView, destroyDocView_eq, callMini, miniSetState,
    notifyStateChanged, DocumentView.new, createEvents]

theorem syncDocView_none (h : Host) (w : PreviewEditorWindow) (ed : Editor)
    (hv : w.m_docView = none) :
    syncDocView h w ed =
      { w with
        m_relatedEditor := some ed.addr, visible := true,
        m_docView := some { editor := createdEditor w ed },
        log := w.log ++ openEvents w ++ destroyEvents w ++ createEvents w ed ++
          [.centerInSpritePoint ed.visibleSpriteBounds.center] } := by
  cases hvis : w.visible <;>
    simp [syncDocView, miniEditorOf, hv, hvis, openWindow, recreateDocView_eq,
      callMini, createdEditor, openEvents, destroyEvents, createEvents]

theorem syncDocView_other (h : Host) (w : PreviewEditorWindow) (ed : Editor)
    (v : DocumentView) (hv : w.m_docView = some v)
    (hdoc : v.editor.document ≠ ed.document) :
    syncDocView h w ed =
      { w with
        m_relatedEditor := some ed.addr, visible := true,
        m_docView := some { editor := createdEditor w ed },
        log := w.log ++ openEvents w ++ destroyEvents w ++ createEvents w ed ++
          [.centerInSpritePoint ed.visibleSpriteBounds.center] } := by
  cases hvis : w.visible <;>
    simp [syncDocView, miniEditorOf, hv, hvis, hdoc, openWindow,
      recreateDocView_eq, callMini, createdEditor, openEvents, destroyEvents,
      createEvents]

theorem syncDocView_same (h : Host) (w : PreviewEditorWindow) (ed : Editor)
    (v : DocumentView) (hv : w.m_docView = some v)
    (hdoc : v.editor.document = ed.document) :
    syncDocView h w ed =
      { w with
        m_relatedEditor := some ed.addr, visible := true,
        m_docView := some
          { editor :=
              if w.m_centerButton.selected then
                { v.editor with centeredAt := some ed.visibleSpriteBounds.center }
              else v.editor },
        log := w.log ++ openEvents w ++
          (if w.m_centerButton.selected then
            [.centerInSpritePoint ed.visibleSpriteBounds.center] else []) } := by
  cases hvis : w.visible <;> cases hsel : w.m_centerButton.selected <;>
    simp [syncDocView, miniEditorOf, hv, hvis, hsel, hdoc, openWindow,
      callMini, openEvents]

theorem miniStop_some (h : Host) (w : PreviewEditorWindow) (v : DocumentView)
    (hv : w.m_docView = some v) :
    miniStop h w =
      { w with
        m_docView := some { editor := v.editor.stop },
        log := w.log ++ [.stop],
        m_playButton :=
          if v.editor.isPlaying && (h.notifiesInline && v.editor.observed) then
            w.m_playButton.stop
          else w.m_playButton } := by
  by_cases hp : v.editor.isPlaying = true
  · by_cases hn : (h.notifiesInline && v.editor.observed) = true
    · simp [miniStop, miniEditorOf, hv, callMini, notifyStateChanged,
        onStateChanged, Editor.stop, hp, hn]
    · simp [miniStop, miniEditorOf, hv, callMini, notifyStateChanged,
        Editor.stop, hp, hn]
  · simp [miniStop, miniEditorOf, hv, callMini, hp]

theorem miniPlay_some (h : Host) (w : PreviewEditorWindow) (v : DocumentView)
    (once : Bool) (hv : w.m_docView = some v) :
    miniPlay h w once =
      { w with
        m_docView := some { editor := v.editor.play once },
        log := w.log ++ [.play once] } := by
  by_cases hn : (h.notifiesInline && v.editor.observed) = true <;>
    simp [miniPlay, hv, callMini, notifyStateChanged, onStateChanged,
      Editor.play, hn]

theorem mirrorOrPlay_static (h : Host) (w : PreviewEditorWindow) (ed : Editor)
    (v : DocumentView) (hv : w.m_docView = some v)
    (hp : w.m_playButton.isPlaying = false) :
    mirrorOrPlay h w ed =
      { w with
        m_docView := some
          { editor := { v.editor.stop with layer := ed.layer, frame := ed.frame } },
        log := w.log ++ [.stop, .setLayer ed.layer, .setFrame ed.frame],
        m_playButton :=
          if v.editor.isPlaying && (h.notifiesInline && v.editor.observed) then
            w.m_playButton.stop
          else w.m_playButton } := by
  simp [mirrorOrPlay, hp, miniStop_some h w v hv, callMini]

theorem stopOnTagChange_some (h : Host) (w : PreviewEditorWindow) (ed : Editor)
    (v : DocumentView) (hv : w.m_docView = some v)
    (htag : h.get_animation_tag ed.sprite ed.frame ≠
      h.get_animation_tag ed.sprite w.m_refFrame) :
    stopOnTagChange h w ed =
      { w with
        m_docView := some { editor := v.editor.stop },
        log := w.log ++ (if v.editor.isPlaying then [.stop] else []),
        m_playButton :=
          if v.editor.isPlaying && (h.notifiesInline && v.editor.observed) then
            w.m_playButton.stop
          else w.m_playButton } := by
  by_cases hp : v.editor.isPlaying = true
  · simp [stopOnTagChange, miniEditorOf, hv, hp, htag, miniStop_some h w v hv]
  · simp [stopOnTagChange, miniEditorOf, hv, hp, Editor.stop]
    cases w
    simp_all

theorem mirrorOrPlay_restart (h : Host) (w : PreviewEditorWindow) (ed : Editor)
    (v : DocumentView) (hv : w.m_docView = some v)
    (hp : w.m_playButton.isPlaying = true)
    (htag : h.get_animation_tag ed.sprite ed.frame ≠
      h.get_animation_tag ed.sprite w.m_refFrame) :
    mirrorOrPlay h w ed =
      { w with
        m_docView := some
          { editor := ({ v.editor.stop with frame := ed.frame }).play h.playOnce },
        m_refFrame := ed.frame,
        log := w.log ++ (if v.editor.isPlaying then [.stop] else []) ++
          [.setFrame ed.frame, .play h.playOnce],
        m_playButton :=
          if v.editor.isPlaying && (h.notifiesInline && v.editor.observed) then
            w.m_playButton.stop
          else w.m_playButton } := by
  have h1 := stopOnTagChange_some h w ed v hv htag
  have h2 : restartFrame (stopOnTagChange h w ed) ed =
      { stopOnTagChange h w ed with
        m_docView := some { editor := { v.editor.stop with frame := ed.frame } },
        m_refFrame := ed.frame,
        log := (stopOnTagChange h w ed).log ++ [.setFrame ed.frame] } := by
    rw [h1]
    simp [restartFrame, miniEditorOf, Editor.stop_isPlaying, callMini]
  have h3 : (restartFrame (stopOnTagChange h w ed) ed).m_docView =
      some { editor := { v.editor.stop with frame := ed.frame } } := by
    rw [h2]
  simp only [mirrorOrPlay, hp]
  rw [show (!true) = false from rfl]
  simp only [Bool.false_eq_true, if_false]
  rw [miniPlay_some h _ _ h.playOnce h3, h2, h1]
  simp

/-- The two ways `syncDocView` can go: the view is replaced (it was missing or
bound to another document), or the existing view is reused. -/
theorem syncDocView_cases (h : Host) (w : PreviewEditorWindow) (ed : Editor) :
    ((w.m_docView = none ∨
        ∃ v, w.m_docView = some v ∧ v.editor.document ≠ ed.document) ∧
      syncDocView h w ed =
        { w with
          m_relatedEditor := some ed.addr, visible := true,
          m_docView := some { editor := createdEditor w ed },
          log := w.log ++ openEvents w ++ destroyEvents w ++ createEvents w ed ++
            [.centerInSpritePoint ed.visibleSpriteBounds.center] }) ∨
    (∃ v, w.m_docView = some v ∧ v.editor.document = ed.document ∧
      syncDocView h w ed =
        { w with
          m_relatedEditor := some ed.addr, visible := true,
          m_docView := some
            { editor :=
                if w.m_centerButton.selected then
                  { v.editor with centeredAt := some ed.visibleSpriteBounds.center }
                else v.editor },
          log := w.log ++ openEvents w ++
            (if w.m_centerButton.selected then
              [.centerInSpritePoint ed.visibleSpriteBounds.center] else []) }) := by
  cases hv : w.m_docView with
  | none => exact Or.inl ⟨Or.inl rfl, syncDocView_none h w ed hv⟩
  | some v =>
    by_cases hdoc : v.editor.document = ed.document
    · exact Or.inr ⟨v, rfl, hdoc, syncDocView_same h w ed v hv hdoc⟩
    · exact Or.inl ⟨Or.inr ⟨v, rfl, hdoc⟩, syncDocView_other h w ed v hv hdoc⟩

theorem openEvents_mem (w : PreviewEditorWindow) (e : Event)
    (he : e ∈ openEvents w) : e = .openWindow := by
  unfold openEvents at he
  split at he <;> simp at he
  exact he

theorem createEvents_not_play (w : PreviewEditorWindow) (ed : Editor)
    (once : Bool) : Event.play once ∉ createEvents w ed := by
  simp [createEvents]

theorem createEvents_not_center (w : PreviewEditorWindow) (ed : Editor)
    (p : Point) : Event.centerInSpritePoint p ∉ createEvents w ed := by
  simp [createEvents]

theorem mirrorCalls_not_center (l : List Event)
    (hl : ∀ e ∈ l, e.isMirrorCall = true) (p : Point) :
    Event.centerInSpritePoint p ∉ l := by
  intro hmem
  have := hl _ hmem
  simp [Event.isMirrorCall] at this

theorem count_eq_zero_of_forall_ne (l : List Event) (a : Event)
    (hl : a ∉ l) : l.count a = 0 :=
  List.count_eq_zero.2 hl

/-! ## The invariant of the secondary view along a history -/

theorem inv_of_docView_none (d : Nat → Option Nat) (w : PreviewEditorWindow)
    (hv : w.m_docView = none) : Inv d w := by
  intro v hv1
  rw [hv] at hv1
  cases hv1

theorem inv_of_kept (d : Nat → Option Nat) {w w' : PreviewEditorWindow}
    (hk : Kept w w') (hi : Inv d w) : Inv d w' := by
  intro v1 hv1
  have hdoc := hk.doc
  rw [hv1] at hdoc
  cases hv : w.m_docView with
  | none => rw [hv] at hdoc; simp at hdoc
  | some v =>
    rw [hv] at hdoc
    simp at hdoc
    obtain ⟨he, a, ha, hd⟩ := hi v hv
    exact ⟨hk.enabled.trans he, a, hk.related.trans ha, hdoc.trans hd⟩

theorem inv_updateUsingEditor (d : Nat → Option Nat) (h : Host)
    (w : PreviewEditorWindow) (editor : Option Editor) (hi : Inv d w)
    (hok : ∀ e, editor = some e → e.document = d e.addr) :
    Inv d (updateUsingEditor h w editor) := by
  cases editor with
  | none =>
    apply inv_of_docView_none
    simp [updateUsingEditor, hideWindow_eq]
  | some ed =>
    by_cases he : w.m_isEnabled = true
    · by_cases ha : ed.isActive = true
      · rw [updateUsingEditor_enabled h w ed he ha]
        refine inv_of_kept d (mirrorOrPlay_kept h _ ed) ?_
        intro v1 hv1
        rcases syncDocView_cases h w ed with ⟨-, heq⟩ | ⟨v, hv, hdoc, heq⟩
        · rw [heq] at hv1 ⊢
          simp only [Option.some.injEq] at hv1
          subst hv1
          exact ⟨he, ed.addr, rfl, by simpa [createdEditor, DocumentView.new] using hok ed rfl⟩
        · rw [heq] at hv1 ⊢
          simp only [Option.some.injEq] at hv1
          subst hv1
          refine ⟨he, ed.addr, rfl, ?_⟩
          have := hok ed rfl
          simp only
          split <;> exact hdoc.trans this
      · have hf : ed.isActive = false := by simpa using ha
        simpa [updateUsingEditor, he, hf] using hi
    · have hf : w.m_isEnabled = false := by simpa using he
      apply inv_of_docView_none
      rw [updateUsingEditor_disabled h w _ hf]

theorem inv_onPlayClicked (d : Nat → Option Nat) (h : Host)
    (w : PreviewEditorWindow) (hi : Inv d w) : Inv d (onPlayClicked h w) := by
  unfold onPlayClicked
  split
  · exact hi
  · split
    · exact hi
    · split
      · exact inv_of_kept d ((refFrame_kept w _).step (miniPlay_kept h _ _)) hi
      · exact inv_of_kept d (miniStop_kept h w) hi

theorem inv_onPopupSpeed (d : Nat → Option Nat) (h : Host)
    (w : PreviewEditorWindow) (hi : Inv d w) : Inv d (onPopupSpeed h w) := by
  unfold onPopupSpeed
  cases hv : w.m_docView with
  | none => simpa [miniEditorOf, hv] using hi
  | some v =>
    simp only [miniEditorOf, hv, Option.map_some']
    split
    · exact hi
    · rw [callMini_some w _ _ v hv]
      intro v1 hv1
      simp only [miniEditorOf, Option.map_some', Option.some.injEq] at hv1
      subst hv1
      exact hi v hv

theorem inv_onCenterClicked (d : Nat → Option Nat) (h : Host)
    (w : PreviewEditorWindow) (hi : Inv d w)
    (hok : ∀ e, h.activeView = some e → e.document = d e.addr) :
    Inv d (onCenterClicked h w) := by
  unfold onCenterClicked
  split
  · cases hview : h.activeView with
    | none => exact hi
    | some e =>
      refine inv_updateUsingEditor d h w (some e) hi ?_
      intro e1 he1
      cases he1
      exact hok e hview
  · exact hi

theorem inv_playButtonSlots (d : Nat → Option Nat) (h : Host)
    (effs : List ButtonEffect) :
    ∀ w, Inv d w → Inv d (effs.foldl (playButtonSlot h) w) := by
  induction effs with
  | nil => intro w hi; exact hi
  | cons e es ih =>
    intro w hi
    refine ih _ ?_
    cases e with
    | popup => exact inv_onPopupSpeed d h w hi
    | baseOnClick => exact inv_onPlayClicked d h w hi
    | _ => exact hi

theorem inv_applyOp (d : Nat → Option Nat) (h : Host) (w : PreviewEditorWindow)
    (op : Op) (hi : Inv d w) (hok : StepOk d (h, op)) :
    Inv d (applyOp h w op) := by
  obtain ⟨hcur, hact, harg⟩ := hok
  cases op with
  | updateUsingEditor editor =>
    exact inv_updateUsingEditor d h w editor hi
      (fun e he => harg e (by rw [he]))
  | setPreviewEnabled state =>
    cases state with
    | false =>
      apply inv_of_docView_none
      exact (setPreviewEnabled_false_eq h w).1
    | true =>
      refine inv_updateUsingEditor d h _ _ ?_ hcur
      intro v hv
      obtain ⟨-, a, ha, hd⟩ := hi v hv
      exact ⟨rfl, a, ha, hd⟩
  | onClose source =>
    cases source with
    | none => exact hi
    | some b =>
      by_cases hc : (b.isButton && b.id == h.kThemeCloseButtonId) = true
      · apply inv_of_docView_none
        simp [applyOp, onClose, hc, destroyDocView_eq]
      · simpa [applyOp, onClose, hc] using hi
  | onWindowResize =>
    cases hview : h.activeView with
    | none =>
      simp only [applyOp, onWindowResize, hview]
      intro v hv
      exact hi v hv
    | some e =>
      simp only [applyOp, onWindowResize, hview]
      refine inv_updateUsingEditor d h _ (some e) ?_ ?_
      · intro v hv
        exact hi v hv
      · intro e1 he1
        cases he1
        exact hact e hview
  | onCenterClicked => exact inv_onCenterClicked d h w hi hact
  | onPlayClicked => exact inv_onPlayClicked d h w hi
  | onStateChanged editor => exact inv_of_kept d (onStateChanged_kept w editor) hi
  | onPopupSpeed => exact inv_onPopupSpeed d h w hi
  | uncheckCenterButton =>
    simp only [applyOp, uncheckCenterButton]
    split
    · intro v hv
      exact hi v hv
    · exact hi
  | centerButtonClick =>
    refine inv_onCenterClicked d h _ ?_ hact
    intro v hv
    exact hi v hv
  | playButtonMessage base msg =>
    refine inv_playButtonSlots d h _ _ ?_
    intro v hv
    exact hi v hv
  | miniEditorTick frame state =>
    simp only [applyOp, miniEditorTick]
    cases hv : w.m_docView with
    | none => simpa using hi
    | some v =>
      simp only
      refine inv_of_kept d (notifyStateChanged_kept h _) ?_
      intro v1 hv1
      simp only [Option.some.injEq] at hv1
      subst hv1
      exact hi v hv

theorem inv_run (d : Nat → Option Nat) (steps : List (Host × Op)) :
    ∀ w, Inv d w → (∀ s ∈ steps, StepOk d s) → Inv d (run w steps) := by
  induction steps with
  | nil => intro w hi _; exact hi
  | cons s ss ih =>
    intro w hi hok
    have h1 : Inv d (applyOp s.1 w s.2) :=
      inv_applyOp d s.1 w s.2 hi (hok s (List.mem_cons_self _ _))
    exact ih _ h1 (fun t ht => hok t (List.mem_cons_of_mem _ ht))

/-! ## Live views along a history -/

theorem liveViews_append (a b : List Event) :
    ∀ n, liveViews n (a ++ b) = (liveViews n a).bind (fun m => liveViews m b) := by
  induction a with
  | nil => intro n; simp [liveViews]
  | cons e es ih =>
    intro n
    cases e <;> simp only [List.cons_append, liveViews] <;>
      first
      | exact ih n
      | (split
         · exact ih _
         · rfl)

theorem liveViews_mirror (l : List Event)
    (hl : ∀ e ∈ l, e.isMirrorCall = true) : ∀ n, liveViews n l = some n := by
  induction l with
  | nil => intro n; rfl
  | cons e es ih =>
    intro n
    have he := hl e (List.mem_cons_self _ _)
    have ih1 := ih (fun x hx => hl x (List.mem_cons_of_mem _ hx)) n
    cases e <;> simp [Event.isMirrorCall] at he <;> simpa [liveViews] using ih1

theorem Balanced.idle (w : PreviewEditorWindow) : Balanced w w :=
  ⟨[], by simp, rfl⟩

theorem Balanced.seq {a b c : PreviewEditorWindow} (h1 : Balanced a b)
    (h2 : Balanced b c) : Balanced a c := by
  obtain ⟨l1, hl1, hv1⟩ := h1
  obtain ⟨l2, hl2, hv2⟩ := h2
  refine ⟨l1 ++ l2, by rw [hl2, hl1, List.append_assoc], ?_⟩
  rw [liveViews_append, hv1]
  exact hv2

theorem ownedViews_of_doc {w w' : PreviewEditorWindow}
    (hd : w'.m_docView.map (fun v => v.editor.document) =
      w.m_docView.map (fun v => v.editor.document)) :
    ownedViews w' = ownedViews w := by
  unfold ownedViews
  cases h1 : w.m_docView <;> cases h2 : w'.m_docView <;> simp [h1, h2] at hd ⊢

theorem balanced_of_kept {w w' : PreviewEditorWindow} (hk : Kept w w') :
    Balanced w w' := by
  obtain ⟨l, hl, hm⟩ := hk.log
  exact ⟨l, hl, by rw [liveViews_mirror l hm, ownedViews_of_doc hk.doc]⟩

theorem balanced_of_same (w w' : PreviewEditorWindow)
    (hv : w'.m_docView.isSome = w.m_docView.isSome) (hl : w'.log = w.log) :
    Balanced w w' :=
  ⟨[], by simp [hl], by simp [liveViews, ownedViews, hv]⟩

theorem balanced_hidden (w w' : PreviewEditorWindow) (hv : w'.m_docView = none)
    (hl : w'.log = w.log ++ destroyEvents w ++
      (if w.visible then [.closeWindow] else [])) : Balanced w w' := by
  refine ⟨destroyEvents w ++ (if w.visible then [.closeWindow] else []),
    by rw [hl, List.append_assoc], ?_⟩
  cases h1 : w.m_docView <;> cases h2 : w.visible <;>
    simp [destroyEvents, ownedViews, liveViews, h1, hv]

theorem balanced_syncDocView (h : Host) (w : PreviewEditorWindow) (ed : Editor) :
    Balanced w (syncDocView h w ed) := by
  rcases syncDocView_cases h w ed with ⟨-, heq⟩ | ⟨v, hv, -, heq⟩
  · refine ⟨openEvents w ++ destroyEvents w ++ createEvents w ed ++
      [.centerInSpritePoint ed.visibleSpriteBounds.center], ?_, ?_⟩
    · rw [heq]; simp
    · rw [heq]
      cases h1 : w.m_docView <;> cases h2 : w.visible <;>
        simp [openEvents, destroyEvents, createEvents, ownedViews, liveViews, h1, h2]
  · refine ⟨openEvents w ++ (if w.m_centerButton.selected then
      [.centerInSpritePoint ed.visibleSpriteBounds.center] else []), ?_, ?_⟩
    · rw [heq]; simp
    · rw [heq]
      cases h2 : w.visible <;> cases h3 : w.m_centerButton.selected <;>
        simp [openEvents, ownedViews, liveViews, hv, h2]

theorem balanced_updateUsingEditor (h : Host) (w : PreviewEditorWindow)
    (editor : Option Editor) : Balanced w (updateUsingEditor h w editor) := by
  cases editor with
  | none =>
    apply balanced_hidden <;> simp [updateUsingEditor, hideWindow_eq]
  | some ed =>
    by_cases he : w.m_isEnabled = true
    · by_cases ha : ed.isActive = true
      · rw [updateUsingEditor_enabled h w ed he ha]
        exact (balanced_syncDocView h w ed).seq
          (balanced_of_kept (mirrorOrPlay_kept h _ ed))
      · have hf : ed.isActive = false := by simpa using ha
        have : updateUsingEditor h w (some ed) = w := by
          simp [updateUsingEditor, he, hf]
        rw [this]
        exact Balanced.idle w
    · have hf : w.m_isEnabled = false := by simpa using he
      apply balanced_hidden <;> rw [updateUsingEditor_disabled h w _ hf]

theorem balanced_onPlayClicked (h : Host) (w : PreviewEditorWindow) :
    Balanced w (onPlayClicked h w) := by
  unfold onPlayClicked
  split
  · exact Balanced.idle w
  · split
    · exact Balanced.idle w
    · split
      · exact balanced_of_kept ((refFrame_kept w _).step (miniPlay_kept h _ _))
      · exact balanced_of_kept (miniStop_kept h w)

theorem balanced_onPopupSpeed (h : Host) (w : PreviewEditorWindow) :
    Balanced w (onPopupSpeed h w) := by
  unfold onPopupSpeed
  cases hv : w.m_docView with
  | none => simpa [miniEditorOf, hv] using Balanced.idle w
  | some v =>
    simp only [miniEditorOf, hv, Option.map_some']
    split
    · exact Balanced.idle w
    · rw [callMini_some w _ _ v hv]
      exact ⟨[.showAnimationSpeedMultiplierPopup], rfl,
        by simp [liveViews, ownedViews, hv, miniEditorOf]⟩

theorem balanced_onCenterClicked (h : Host) (w : PreviewEditorWindow) :
    Balanced w (onCenterClicked h w) := by
  unfold onCenterClicked
  split
  · cases h.activeView with
    | none => exact Balanced.idle w
    | some e => exact balanced_updateUsingEditor h w (some e)
  · exact Balanced.idle w

theorem balanced_playButtonSlots (h : Host) (effs : List ButtonEffect) :
    ∀ w0 w, Balanced w0 w → Balanced w0 (effs.foldl (playButtonSlot h) w) := by
  induction effs with
  | nil => intro w0 w hb; exact hb
  | cons e es ih =>
    intro w0 w hb
    refine ih w0 _ ?_
    cases e with
    | popup => exact hb.seq (balanced_onPopupSpeed h w)
    | baseOnClick => exact hb.seq (balanced_onPlayClicked h w)
    | _ => exact hb

theorem balanced_applyOp (h : Host) (w : PreviewEditorWindow) (op : Op) :
    Balanced w (applyOp h w op) := by
  cases op with
  | updateUsingEditor editor => exact balanced_updateUsingEditor h w editor
  | setPreviewEnabled state =>
    exact (balanced_of_same w { w with m_isEnabled := state } rfl rfl).seq
      (balanced_updateUsingEditor h _ _)
  | onClose source =>
    cases source with
    | none => exact Balanced.idle w
    | some b =>
      by_cases hc : (b.isButton && b.id == h.kThemeCloseButtonId) = true
      · refine ⟨[.toolBarInvalidate] ++ destroyEvents w, ?_, ?_⟩
        · simp [applyOp, onClose, hc, destroyDocView_eq, destroyEvents]
        · cases h1 : w.m_docView <;>
            simp [applyOp, onClose, hc, destroyDocView_eq, destroyEvents,
              ownedViews, liveViews, h1]
      · have : applyOp h w (.onClose (some b)) = w := by
          simp [applyOp, onClose, hc]
        rw [this]
        exact Balanced.idle w
  | onWindowResize =>
    have h1 : Balanced w { w with log := w.log ++ [.windowOnWindowResize] } :=
      ⟨[.windowOnWindowResize], rfl, by simp [liveViews, ownedViews]⟩
    cases hview : h.activeView with
    | none => simpa [applyOp, onWindowResize, hview] using h1
    | some e =>
      simp only [applyOp, onWindowResize, hview]
      exact h1.seq (balanced_updateUsingEditor h _ _)
  | onCenterClicked => exact balanced_onCenterClicked h w
  | onPlayClicked => exact balanced_onPlayClicked h w
  | onStateChanged editor => exact balanced_of_kept (onStateChanged_kept w editor)
  | onPopupSpeed => exact balanced_onPopupSpeed h w
  | uncheckCenterButton =>
    simp only [applyOp, uncheckCenterButton]
    split
    · exact balanced_of_same _ _ rfl rfl
    · exact Balanced.idle w
  | centerButtonClick =>
    exact (balanced_of_same w _ rfl rfl).seq (balanced_onCenterClicked h _)
  | playButtonMessage base msg =>
    exact balanced_playButtonSlots h _ w _ (balanced_of_same w _ rfl rfl)
  | miniEditorTick frame state =>
    simp only [applyOp, miniEditorTick]
    cases hv : w.m_docView with
    | none => exact Balanced.idle w
    | some v =>
      simp only
      exact Balanced.seq (balanced_of_same w _ (by simp [hv]) (by rfl))
        (balanced_of_kept (notifyStateChanged_kept h _))

theorem balanced_run (steps : List (Host × Op)) :
    ∀ w, Balanced w (run w steps) := by
  induction steps with
  | nil => intro w; exact Balanced.idle w
  | cons s ss ih =>
    intro w
    exact (balanced_applyOp s.1 w s.2).seq (ih _)

/-! ## The claims -/

/-- C2: for every finite sequence of `updateUsingEditor` calls made while
`m_isEnabled` is false, from any state and with any editor arguments, the log
only grows, no `DocumentView` is constructed and `openWindow` is not called
during the sequence, the window stays disabled, and after each call (every
non-empty initial part of the sequence) `m_docView` is null, the window is not
visible and `m_relatedEditor` is null. -/
theorem C2_disabled_never_constructs_or_opens (w : PreviewEditorWindow)
    (calls : List (Host × Option Editor)) (hd : w.m_isEnabled = false) :
    (updateUsingEditorSeq w calls).m_isEnabled = false ∧
    w.log <+: (updateUsingEditorSeq w calls).log ∧
    (∀ e ∈ callLog w (updateUsingEditorSeq w calls),
      e ≠ .openWindow ∧ ∀ d, e ≠ .newDocumentView d) ∧
    (∀ n, 0 < n → n ≤ calls.length →
      (updateUsingEditorSeq w (calls.take n)).m_docView = none ∧
      (updateUsingEditorSeq w (calls.take n)).visible = false ∧
      (updateUsingEditorSeq w (calls.take n)).m_relatedEditor = none) := by
  obtain ⟨h1, ⟨l, hl, hmem⟩, -⟩ := updateUsingEditorSeq_disabled calls w hd
  refine ⟨h1, ⟨l, hl.symm⟩, ?_, ?_⟩
  · intro e he
    rw [callLog_append _ _ l hl] at he
    rcases hmem e he with h | h | h <;> subst h <;> simp
  · intro n hn hle
    have hne : calls.take n ≠ [] := by
      intro h0
      have hlen := congrArg List.length h0
      rw [List.length_take, List.length_nil] at hlen
      omega
    exact (updateUsingEditorSeq_disabled (calls.take n) w hd).2.2 hne

/-- C3: from every state and whatever the host's current editor is,
`setPreviewEnabled(false)` ends with `m_isEnabled` false, `m_docView` null,
the window not visible and `m_relatedEditor` null; `m_refFrame`, `m_aniSpeed`
and both buttons are unchanged; the calls made are exactly: the previous view,
if any, is removed as observed editor and deleted, then the window, if it was
visible, is closed. -/
theorem C3_setPreviewEnabled_false (h : Host) (w : PreviewEditorWindow) :
    (setPreviewEnabled h w false).m_isEnabled = false ∧
    (setPreviewEnabled h w false).m_docView = none ∧
    (setPreviewEnabled h w false).visible = false ∧
    (setPreviewEnabled h w false).m_relatedEditor = none ∧
    (setPreviewEnabled h w false).m_refFrame = w.m_refFrame ∧
    (setPreviewEnabled h w false).m_aniSpeed = w.m_aniSpeed ∧
    (setPreviewEnabled h w false).m_playButton = w.m_playButton ∧
    (setPreviewEnabled h w false).m_centerButton = w.m_centerButton ∧
    (setPreviewEnabled h w false).log =
      w.log ++ (if w.m_docView.isSome then [.removeObserver, .deleteDocView] else [])
        ++ (if w.visible then [.closeWindow] else []) := by
  have hd : ({ w with m_isEnabled := false } : PreviewEditorWindow).m_isEnabled = false := rfl
  simp only [setPreviewEnabled, updateUsingEditor_disabled _ _ _ hd, destroyEvents]
  simp

/-- C8: when the source of the close event is a `Button` carrying the theme's
close-button id, `onClose` leaves `m_isEnabled` false and `m_docView` null,
having invalidated the tool bar and then removed the previous view (if any) as
observed editor and deleted it; for a null source or any other widget the
window is left as it was. In both cases `m_refFrame`, `m_aniSpeed` and both
buttons are unchanged. -/
theorem C8_onClose (h : Host) (w : PreviewEditorWindow)
    (source : Option Widget) :
    ((∃ b, source = some b ∧ b.isButton = true ∧ b.id = h.kThemeCloseButtonId) →
      (onClose h w source).m_isEnabled = false ∧
      (onClose h w source).m_docView = none ∧
      (onClose h w source).log = w.log ++ [.toolBarInvalidate] ++
        (if w.m_docView.isSome then [.removeObserver, .deleteDocView] else [])) ∧
    ((source = none ∨
        ∃ b, source = some b ∧ (b.isButton = false ∨ b.id ≠ h.kThemeCloseButtonId)) →
      (onClose h w source).m_isEnabled = w.m_isEnabled ∧
      (onClose h w source).m_docView = w.m_docView ∧
      onClose h w source = w) ∧
    (onClose h w source).m_refFrame = w.m_refFrame ∧
    (onClose h w source).m_aniSpeed = w.m_aniSpeed ∧
    (onClose h w source).m_playButton = w.m_playButton ∧
    (onClose h w source).m_centerButton = w.m_centerButton := by
  refine ⟨?_, ?_, ?_⟩
  · rintro ⟨b, rfl, hb, hid⟩
    simp [onClose, hb, hid, destroyDocView_eq, destroyEvents]
  · rintro (rfl | ⟨b, rfl, hb | hid⟩)
    · simp [onClose]
    · simp [onClose, hb]
    · simp [onClose, hid]
  · cases source with
    | none => simp [onClose]
    | some b =>
      by_cases hc : (b.isButton && b.id == h.kThemeCloseButtonId) = true
      · simp [onClose, hc, destroyDocView_eq]
      · simp [onClose, hc]

/-- C9: a right-button mouse-up delivered to the play button while it has the
mouse capture releases the capture, emits `Popup` exactly once, deselects the
button, returns true without the base handler being called, and leaves
`m_isPlaying` and the installed icon set unchanged. A right-button mouse-up
without capture, or a mouse-up without the right button, emits no `Popup` and
is forwarded to the base handler. -/
theorem C9_playButton_mouseUp
    (base : Message → MiniPlayButton → BaseOutcome) (b : MiniPlayButton) :
    (b.hasCapture = true →
      MiniPlayButton.onProcessMessage base b (.mouseUp true) =
        ({ b with hasCapture := false, selected := false },
          [.releaseMouse, .popup, .setSelected false], true) ∧
      (MiniPlayButton.onProcessMessage base b (.mouseUp true)).1.m_isPlaying
        = b.m_isPlaying ∧
      (MiniPlayButton.onProcessMessage base b (.mouseUp true)).1.parts = b.parts ∧
      (MiniPlayButton.onProcessMessage base b (.mouseUp true)).2.1.count .popup = 1 ∧
      (∀ m, ButtonEffect.baseProcessMessage m ∉
        (MiniPlayButton.onProcessMessage base b (.mouseUp true)).2.1)) ∧
    (∀ right, (right = false ∨ b.hasCapture = false) →
      MiniPlayButton.onProcessMessage base b (.mouseUp right) =
        MiniPlayButton.baseOnProcessMessage base b (.mouseUp right) ∧
      ButtonEffect.popup ∉
        (MiniPlayButton.onProcessMessage base b (.mouseUp right)).2.1 ∧
      ButtonEffect.baseProcessMessage (.mouseUp right) ∈
        (MiniPlayButton.onProcessMessage base b (.mouseUp right)).2.1 ∧
      (MiniPlayButton.onProcessMessage base b (.mouseUp right)).2.2 =
        (base (.mouseUp right) b).handled) := by
  constructor
  · intro hc
    simp [MiniPlayButton.onProcessMessage, hc]
  · rintro right (rfl | hc)
    · simp only [MiniPlayButton.onProcessMessage, MiniPlayButton.baseOnProcessMessage]
      by_cases hk : (base (.mouseUp false) b).clicked = true <;> simp [hk]
    · simp only [MiniPlayButton.onProcessMessage, MiniPlayButton.baseOnProcessMessage, hc]
      by_cases hk : (base (.mouseUp right) b).clicked = true <;> simp [hk]

/-- C10: `onStateChanged(editor)` leaves the play button stopped (not playing,
play icons installed) when the editor's state is null or is not a `PlayState`,
and leaves the play button as it was when the state is a `PlayState`; in both
cases every other member of the window is unchanged. -/
theorem C10_onStateChanged (w : PreviewEditorWindow) (editor : Editor) :
    ((∀ once, editor.state ≠ some (.play once)) →
      (onStateChanged w editor).m_playButton.isPlaying = false ∧
      (onStateChanged w editor).m_playButton.parts = .playButton ∧
      (onStateChanged w editor).m_playButton = w.m_playButton.stop) ∧
    ((∃ once, editor.state = some (.play once)) →
      (onStateChanged w editor).m_playButton = w.m_playButton) ∧
    (onStateChanged w editor).m_isEnabled = w.m_isEnabled ∧
    (onStateChanged w editor).m_docView = w.m_docView ∧
    (onStateChanged w editor).m_relatedEditor = w.m_relatedEditor ∧
    (onStateChanged w editor).m_refFrame = w.m_refFrame ∧
    (onStateChanged w editor).m_aniSpeed = w.m_aniSpeed ∧
    (onStateChanged w editor).m_centerButton = w.m_centerButton ∧
    (onStateChanged w editor).visible = w.visible ∧
    (onStateChanged w editor).log = w.log := by
  refine ⟨?_, ?_, ?_⟩
  · intro hs
    unfold onStateChanged
    split
    · next once heq => exact absurd heq (hs once)
    · simp [MiniPlayButton.stop, MiniPlayButton.setupIcons, MiniPlayButton.isPlaying]
  · rintro ⟨once, hs⟩
    simp [onStateChanged, hs]
  · unfold onStateChanged
    split <;> simp

/-- C4: when the window is enabled, the editor is non-null and active and the
play button is not playing, `updateUsingEditor` returns with a secondary view
bound to the editor's document whose editor is not playing and has the
primary's layer and frame; the last three calls of the call are `stop()`,
`setLayer(editor->layer())` and `setFrame(editor->frame())` on the secondary
editor; `m_refFrame` is unchanged and `play` is not called. -/
theorem C4_static_mirror (h : Host) (w : PreviewEditorWindow) (ed : Editor)
    (he : w.m_isEnabled = true) (ha : ed.isActive = true)
    (hp : w.m_playButton.isPlaying = false) :
    (∃ v, (updateUsingEditor h w (some ed)).m_docView = some v ∧
      v.editor.document = ed.document ∧ v.editor.isPlaying = false ∧
      v.editor.layer = ed.layer ∧ v.editor.frame = ed.frame) ∧
    (updateUsingEditor h w (some ed)).m_refFrame = w.m_refFrame ∧
    w.log <+: (updateUsingEditor h w (some ed)).log ∧
    (∃ pre, callLog w (updateUsingEditor h w (some ed)) =
      pre ++ [.stop, .setLayer ed.layer, .setFrame ed.frame]) ∧
    (∀ once, Event.play once ∉ callLog w (updateUsingEditor h w (some ed))) := by
  rw [updateUsingEditor_enabled h w ed he ha]
  rcases syncDocView_cases h w ed with ⟨-, heq⟩ | ⟨v, hv, hdoc, heq⟩
  · have hv1 : (syncDocView h w ed).m_docView =
        some { editor := createdEditor w ed } := by rw [heq]
    have hp1 : (syncDocView h w ed).m_playButton.isPlaying = false := by
      rw [heq]; exact hp
    rw [mirrorOrPlay_static h _ ed _ hv1 hp1, heq]
    refine ⟨⟨_, rfl, ?_, ?_, rfl, rfl⟩, rfl, ?_, ?_, ?_⟩
    · simp [Editor.stop_document, createdEditor, DocumentView.new]
    · exact Editor.isPlaying_stop_with _ _ _
    · exact ⟨_, (List.append_assoc _ _ _).symm.trans
        ((List.append_assoc _ _ _).symm.trans
          ((List.append_assoc _ _ _).symm.trans
            ((List.append_assoc _ _ _).symm.trans rfl)))⟩
    · exact ⟨openEvents w ++ destroyEvents w ++ createEvents w ed ++
        [.centerInSpritePoint ed.visibleSpriteBounds.center], by simp [callLog]⟩
    · intro once hmem
      simp only [callLog, List.append_assoc, List.drop_left, List.mem_append] at hmem
      rcases hmem with h1 | h1 | h1 | h1 | h1
      · cases openEvents_mem _ _ h1
      · rcases destroyEvents_mem _ _ h1 with h2 | h2 <;> cases h2
      · exact createEvents_not_play _ _ _ h1
      · simp at h1
      · simp at h1
  · have hv1 : (syncDocView h w ed).m_docView =
        some { editor :=
          if w.m_centerButton.selected then
            { v.editor with centeredAt := some ed.visibleSpriteBounds.center }
          else v.editor } := by rw [heq]
    have hp1 : (syncDocView h w ed).m_playButton.isPlaying = false := by
      rw [heq]; exact hp
    rw [mirrorOrPlay_static h _ ed _ hv1 hp1, heq]
    refine ⟨⟨_, rfl, ?_, ?_, rfl, rfl⟩, rfl, ?_, ?_, ?_⟩
    · rw [Editor.stop_document]
      split <;> exact hdoc
    · exact Editor.isPlaying_stop_with _ _ _
    · exact ⟨_, (List.append_assoc _ _ _).symm.trans
        ((List.append_assoc _ _ _).symm.trans rfl)⟩
    · exact ⟨openEvents w ++ (if w.m_centerButton.selected then
        [.centerInSpritePoint ed.visibleSpriteBounds.center] else []),
        by simp [callLog]⟩
    · intro once hmem
      simp only [callLog, List.append_assoc, List.drop_left, List.mem_append] at hmem
      rcases hmem with h1 | h1 | h1
      · cases openEvents_mem _ _ h1
      · split at h1 <;> simp at h1
      · simp at h1

/-- C5: when the window is enabled, the editor is non-null and active, the
play button is playing, and the tag at the editor's frame differs from the tag
at the value `m_refFrame` had on entry, `updateUsingEditor` returns with a
secondary view bound to the editor's document whose editor has the editor's
frame, with `m_refFrame` equal to the editor's frame; the call ends in
`setFrame(editor->frame())` followed by `play(playOnce)`, which is the only
`play` call of the call, and when the reused secondary editor was playing the
call just before those two is `stop()`. The secondary editor ends in the
playing state with the preference's play-once flag. -/
theorem C5_restart_on_tag_change (h : Host) (w : PreviewEditorWindow)
    (ed : Editor) (he : w.m_isEnabled = true) (ha : ed.isActive = true)
    (hp : w.m_playButton.isPlaying = true)
    (htag : h.get_animation_tag ed.sprite ed.frame ≠
      h.get_animation_tag ed.sprite w.m_refFrame) :
    (∃ v, (updateUsingEditor h w (some ed)).m_docView = some v ∧
      v.editor.document = ed.document ∧ v.editor.frame = ed.frame ∧
      v.editor.state = some (.play h.playOnce)) ∧
    (updateUsingEditor h w (some ed)).m_refFrame = ed.frame ∧
    w.log <+: (updateUsingEditor h w (some ed)).log ∧
    (∃ pre, callLog w (updateUsingEditor h w (some ed)) =
        pre ++ [.setFrame ed.frame, .play h.playOnce] ∧
      (∀ once, Event.play once ∉ pre) ∧
      (∀ v0, w.m_docView = some v0 → v0.editor.document = ed.document →
        v0.editor.isPlaying = true → ∃ pre0, pre = pre0 ++ [.stop])) := by
  rw [updateUsingEditor_enabled h w ed he ha]
  rcases syncDocView_cases h w ed with ⟨hst, heq⟩ | ⟨v, hv, hdoc, heq⟩
  · have hv1 : (syncDocView h w ed).m_docView =
        some { editor := createdEditor w ed } := by rw [heq]
    have hp1 : (syncDocView h w ed).m_playButton.isPlaying = true := by
      rw [heq]; exact hp
    have ht1 : h.get_animation_tag ed.sprite ed.frame ≠
        h.get_animation_tag ed.sprite (syncDocView h w ed).m_refFrame := by
      rw [heq]; exact htag
    rw [mirrorOrPlay_restart h _ ed _ hv1 hp1 ht1, heq]
    have hnp : (createdEditor w ed).isPlaying = false := rfl
    refine ⟨⟨_, rfl, ?_, ?_, ?_⟩, rfl, ?_, ?_⟩
    · simp [Editor.play_document, Editor.stop_document, createdEditor,
        DocumentView.new]
    · simp [Editor.play_frame]
    · rfl
    · simp only [List.append_assoc]
      exact ⟨_, rfl⟩
    · refine ⟨openEvents w ++ destroyEvents w ++ createEvents w ed ++
        [.centerInSpritePoint ed.visibleSpriteBounds.center], ?_, ?_, ?_⟩
      · simp [callLog, hnp]
      · intro once hmem
        simp only [List.append_assoc, List.mem_append] at hmem
        rcases hmem with h1 | h1 | h1 | h1
        · cases openEvents_mem _ _ h1
        · rcases destroyEvents_mem _ _ h1 with h2 | h2 <;> cases h2
        · exact createEvents_not_play _ _ _ h1
        · simp at h1
      · intro v0 hv0 hd0 _
        rcases hst with hnone | ⟨v', hv', hne⟩
        · rw [hnone] at hv0; cases hv0
        · rw [hv'] at hv0; cases hv0; exact absurd hd0 hne
  · have hv1 : (syncDocView h w ed).m_docView =
        some { editor :=
          if w.m_centerButton.selected then
            { v.editor with centeredAt := some ed.visibleSpriteBounds.center }
          else v.editor } := by rw [heq]
    have hp1 : (syncDocView h w ed).m_playButton.isPlaying = true := by
      rw [heq]; exact hp
    have ht1 : h.get_animation_tag ed.sprite ed.frame ≠
        h.get_animation_tag ed.sprite (syncDocView h w ed).m_refFrame := by
      rw [heq]; exact htag
    rw [mirrorOrPlay_restart h _ ed _ hv1 hp1 ht1, heq]
    have hpl : (if w.m_centerButton.selected then
          ({ v.editor with centeredAt := some ed.visibleSpriteBounds.center } : Editor)
        else v.editor).isPlaying = v.editor.isPlaying := by
      split
      · exact Editor.isPlaying_congr rfl
      · rfl
    refine ⟨⟨_, rfl, ?_, ?_, ?_⟩, rfl, ?_, ?_⟩
    · rw [Editor.play_document]
      show (Editor.stop _).document = _
      rw [Editor.stop_document]
      split <;> exact hdoc
    · simp [Editor.play_frame]
    · rfl
    · simp only [List.append_assoc]
      exact ⟨_, rfl⟩
    · refine ⟨openEvents w ++ (if w.m_centerButton.selected then
        [.centerInSpritePoint ed.visibleSpriteBounds.center] else []) ++
        (if v.editor.isPlaying then [.stop] else []), ?_, ?_, ?_⟩
      · simp [callLog, hpl]
      · intro once hmem
        simp only [List.append_assoc, List.mem_append] at hmem
        rcases hmem with h1 | h1 | h1
        · cases openEvents_mem _ _ h1
        · split at h1 <;> simp at h1
        · split at h1 <;> simp at h1
      · intro v0 hv0 _ hplay
        rw [hv] at hv0
        cases hv0
        exact ⟨_, by rw [hplay]; rfl⟩

/-- C7: when the window is enabled and the editor is non-null and active: if
the center button is selected, or the secondary view is missing or bound to
another document (so that it is replaced in this call), the call makes exactly
one `centerInSpritePoint` call, its argument is the midpoint
`(x + w/2, y + h/2)` of the editor's visible sprite bounds, and the secondary
editor ends centred there; if the center button is not selected and the
existing view is bound to the editor's document, `centerInSpritePoint` is not
called. -/
theorem C7_centering (h : Host) (w : PreviewEditorWindow) (ed : Editor)
    (he : w.m_isEnabled = true) (ha : ed.isActive = true) :
    ((w.m_centerButton.selected = true ∨ w.m_docView = none ∨
        (∃ v, w.m_docView = some v ∧ v.editor.document ≠ ed.document)) →
      (callLog w (updateUsingEditor h w (some ed))).count
        (.centerInSpritePoint ed.visibleSpriteBounds.center) = 1 ∧
      (∀ p, Event.centerInSpritePoint p ∈
          callLog w (updateUsingEditor h w (some ed)) →
        p = ed.visibleSpriteBounds.center) ∧
      (∃ v, (updateUsingEditor h w (some ed)).m_docView = some v ∧
        v.editor.centeredAt = some ed.visibleSpriteBounds.center)) ∧
    ((w.m_centerButton.selected = false ∧
        ∃ v, w.m_docView = some v ∧ v.editor.document = ed.document) →
      ∀ p, Event.centerInSpritePoint p ∉
        callLog w (updateUsingEditor h w (some ed))) ∧
    ed.visibleSpriteBounds.center =
      ⟨ed.visibleSpriteBounds.x + ed.visibleSpriteBounds.w.tdiv 2,
        ed.visibleSpriteBounds.y + ed.visibleSpriteBounds.h.tdiv 2⟩ := by
  rw [updateUsingEditor_enabled h w ed he ha]
  have hk := mirrorOrPlay_kept h (syncDocView h w ed) ed
  obtain ⟨l, hl, hmir⟩ := hk.log
  have hcen := hk.centered
  refine ⟨?_, ?_, rfl⟩
  · intro hcond
    rcases syncDocView_cases h w ed with ⟨-, heq⟩ | ⟨v, hv, hdoc, heq⟩
    · have hlog : callLog w (mirrorOrPlay h (syncDocView h w ed) ed) =
          openEvents w ++ destroyEvents w ++ createEvents w ed ++
            [.centerInSpritePoint ed.visibleSpriteBounds.center] ++ l := by
        rw [callLog, hl, heq]; simp
      rw [hlog]
      have h1 : ∀ p, Event.centerInSpritePoint p ∉ openEvents w := by
        intro p hm; cases openEvents_mem _ _ hm
      have h2 : ∀ p, Event.centerInSpritePoint p ∉ destroyEvents w := by
        intro p hm; rcases destroyEvents_mem _ _ hm with h3 | h3 <;> cases h3
      refine ⟨?_, ?_, ?_⟩
      · simp [List.count_append, count_eq_zero_of_forall_ne _ _ (h1 _),
          count_eq_zero_of_forall_ne _ _ (h2 _),
          count_eq_zero_of_forall_ne _ _ (createEvents_not_center w ed _),
          count_eq_zero_of_forall_ne _ _ (mirrorCalls_not_center l hmir _)]
      · intro p hm
        simp only [List.mem_append] at hm
        rcases hm with (((hm | hm) | hm) | hm) | hm
        · exact absurd hm (h1 p)
        · exact absurd hm (h2 p)
        · exact absurd hm (createEvents_not_center w ed p)
        · simpa using hm
        · exact absurd hm (mirrorCalls_not_center l hmir p)
      · rw [heq] at hcen
        cases hm : (mirrorOrPlay h (syncDocView h w ed) ed).m_docView with
        | none => rw [heq] at hm; rw [hm] at hcen; simp at hcen
        | some v' =>
          rw [heq] at hm; rw [hm] at hcen
          refine ⟨v', rfl, ?_⟩
          simpa [createdEditor] using hcen
    · have hsel : w.m_centerButton.selected = true := by
        rcases hcond with hs | hn | ⟨v', hv', hne⟩
        · exact hs
        · rw [hn] at hv; cases hv
        · rw [hv'] at hv; cases hv; exact absurd hdoc hne
      have hlog : callLog w (mirrorOrPlay h (syncDocView h w ed) ed) =
          openEvents w ++
            [.centerInSpritePoint ed.visibleSpriteBounds.center] ++ l := by
        rw [callLog, hl, heq]; simp [hsel]
      rw [hlog]
      have h1 : ∀ p, Event.centerInSpritePoint p ∉ openEvents w := by
        intro p hm; cases openEvents_mem _ _ hm
      refine ⟨?_, ?_, ?_⟩
      · simp [List.count_append, count_eq_zero_of_forall_ne _ _ (h1 _),
          count_eq_zero_of_forall_ne _ _ (mirrorCalls_not_center l hmir _)]
      · intro p hm
        simp only [List.mem_append] at hm
        rcases hm with (hm | hm) | hm
        · exact absurd hm (h1 p)
        · simpa using hm
        · exact absurd hm (mirrorCalls_not_center l hmir p)
      · rw [heq] at hcen
        cases hm : (mirrorOrPlay h (syncDocView h w ed) ed).m_docView with
        | none => rw [heq] at hm; rw [hm] at hcen; simp at hcen
        | some v' =>
          rw [heq] at hm; rw [hm] at hcen
          refine ⟨v', rfl, ?_⟩
          simpa [hsel] using hcen
  · rintro ⟨hsel, v0, hv0, hd0⟩ p hm
    rcases syncDocView_cases h w ed with ⟨hst, -⟩ | ⟨v, hv, hdoc, heq⟩
    · rcases hst with hn | ⟨v', hv', hne⟩
      · rw [hn] at hv0; cases hv0
      · rw [hv'] at hv0; cases hv0; exact hne hd0
    · have hlog : callLog w (mirrorOrPlay h (syncDocView h w ed) ed) =
          openEvents w ++ l := by
        rw [callLog, hl, heq]; simp [hsel]
      rw [hlog] at hm
      rcases List.mem_append.1 hm with hm | hm
      · cases openEvents_mem _ _ hm
      · exact mirrorCalls_not_center l hmir p hm

/-- C1: along every history of window events that starts at the constructor,
with the primary editors' documents fixed, whenever the secondary view exists
the window is enabled, a primary editor is tracked, and the secondary editor
is bound to the document of that tracked editor. And after any
`updateUsingEditor(editor)` call with the window enabled and a non-null active
editor, the secondary view exists and is bound to the editor's document. -/
theorem C1_secondary_view_invariant (documentOf : Nat → Option Nat) :
    (∀ (configEnabled : Bool) (steps : List (Host × Op)),
      (∀ s ∈ steps, StepOk documentOf s) →
      ∀ v, (run (PreviewEditorWindow.init configEnabled) steps).m_docView = some v →
        (run (PreviewEditorWindow.init configEnabled) steps).m_isEnabled = true ∧
        ∃ a, (run (PreviewEditorWindow.init configEnabled) steps).m_relatedEditor
            = some a ∧
          v.editor.document = documentOf a) ∧
    (∀ (h : Host) (w : PreviewEditorWindow) (ed : Editor),
      w.m_isEnabled = true → ed.isActive = true →
      ∃ v, (updateUsingEditor h w (some ed)).m_docView = some v ∧
        v.editor.document = ed.document) := by
  constructor
  · intro configEnabled steps hok
    exact inv_run documentOf steps _
      (inv_of_docView_none documentOf _ rfl) hok
  · intro h w ed he ha
    rw [updateUsingEditor_enabled h w ed he ha]
    have hk := mirrorOrPlay_kept h (syncDocView h w ed) ed
    have hd := hk.doc
    have hsync : ∃ v1, (syncDocView h w ed).m_docView = some v1 ∧
        v1.editor.document = ed.document := by
      rcases syncDocView_cases h w ed with ⟨-, heq⟩ | ⟨v, hv, hdoc, heq⟩
      · rw [heq]
        exact ⟨_, rfl, rfl⟩
      · rw [heq]
        refine ⟨_, rfl, ?_⟩
        simp only
        split <;> exact hdoc
    obtain ⟨v1, hv1, hdoc1⟩ := hsync
    rw [hv1] at hd
    cases hm : (mirrorOrPlay h (syncDocView h w ed) ed).m_docView with
    | none => rw [hm] at hd; simp at hd
    | some v2 =>
      rw [hm] at hd
      simp at hd
      exact ⟨v2, rfl, hd.trans hdoc1⟩

/-- C6: for an `updateUsingEditor(editor)` call with the window enabled and the
editor non-null and active: when no secondary view exists or it is bound to
another document, the calls of the call are `openWindow` (if the window was
not visible), then the removal of the old view as observed editor and its
deletion (only if a view existed), then exactly one `DocumentView`
construction, and after it no further removal, deletion or construction; when
the view exists and is bound to the editor's document, the call makes no
removal, deletion or construction. Along every history from the constructor
no view is constructed while another one is alive and none is deleted while
none is alive, and the number of live views is one when `m_docView` is set and
zero otherwise. -/
theorem C6_single_destroy_construct :
    (∀ (h : Host) (w : PreviewEditorWindow) (ed : Editor),
      w.m_isEnabled = true → ed.isActive = true →
      ((w.m_docView = none ∨
          ∃ v, w.m_docView = some v ∧ v.editor.document ≠ ed.document) →
        ∃ post, callLog w (updateUsingEditor h w (some ed)) =
            (if w.visible then [] else [.openWindow]) ++
            (if w.m_docView.isSome then [.removeObserver, .deleteDocView] else []) ++
            [.newDocumentView ed.document] ++ post ∧
          ∀ e ∈ post, e ≠ .removeObserver ∧ e ≠ .deleteDocView ∧
            ∀ d, e ≠ .newDocumentView d) ∧
      ((∃ v, w.m_docView = some v ∧ v.editor.document = ed.document) →
        ∀ e ∈ callLog w (updateUsingEditor h w (some ed)),
          e ≠ .removeObserver ∧ e ≠ .deleteDocView ∧
            ∀ d, e ≠ .newDocumentView d)) ∧
    (∀ (configEnabled : Bool) (steps : List (Host × Op)),
      liveViews 0 (run (PreviewEditorWindow.init configEnabled) steps).log =
        some (if (run (PreviewEditorWindow.init configEnabled) steps).m_docView.isSome
          then 1 else 0)) := by
  constructor
  · intro h w ed he ha
    rw [updateUsingEditor_enabled h w ed he ha]
    obtain ⟨l, hl, hmir⟩ := (mirrorOrPlay_kept h (syncDocView h w ed) ed).log
    have hmir1 : ∀ e ∈ l, e ≠ .removeObserver ∧ e ≠ .deleteDocView ∧
        ∀ d, e ≠ .newDocumentView d := by
      intro e he1
      have := hmir e he1
      refine ⟨?_, ?_, ?_⟩
      · rintro rfl; simp [Event.isMirrorCall] at this
      · rintro rfl; simp [Event.isMirrorCall] at this
      · rintro d rfl; simp [Event.isMirrorCall] at this
    constructor
    · intro hst
      rcases syncDocView_cases h w ed with ⟨-, heq⟩ | ⟨v, hv, hdoc, -⟩
      · refine ⟨[.addChild, .setZoom 1 1, .setLayer ed.layer, .setFrame ed.frame,
          .setState .navigate, .setAnimationSpeedMultiplier w.m_aniSpeed,
          .addObserver, .layout,
          .centerInSpritePoint ed.visibleSpriteBounds.center] ++ l, ?_, ?_⟩
        · rw [callLog, hl, heq]
          simp [openEvents, destroyEvents, createEvents]
        · intro e he1
          rcases List.mem_append.1 he1 with h1 | h1
          · simp at h1
            rcases h1 with h1 | h1 | h1 | h1 | h1 | h1 | h1 | h1 | h1 <;>
              subst h1 <;> simp
          · exact hmir1 e h1
      · rcases hst with hn | ⟨v1, hv1, hne⟩
        · rw [hn] at hv; cases hv
        · rw [hv1] at hv; cases hv; exact absurd hdoc hne
    · rintro ⟨v0, hv0, hd0⟩ e he1
      rcases syncDocView_cases h w ed with ⟨hst, -⟩ | ⟨v, hv, hdoc, heq⟩
      · rcases hst with hn | ⟨v1, hv1, hne⟩
        · rw [hn] at hv0; cases hv0
        · rw [hv1] at hv0; cases hv0; exact absurd hd0 hne
      · rw [callLog, hl, heq] at he1
        simp only [List.append_assoc, List.drop_left, List.mem_append] at he1
        rcases he1 with h1 | h1 | h1
        · cases openEvents_mem _ _ h1; simp
        · split at h1 <;> simp at h1
          subst h1; simp
        · exact hmir1 e h1
  · intro configEnabled steps
    obtain ⟨l, hl, hv⟩ := balanced_run steps (PreviewEditorWindow.init configEnabled)
    have h0 : (PreviewEditorWindow.init configEnabled).log = [] := rfl
    rw [h0, List.nil_append] at hl
    rw [hl]
    exact hv

/-- C1 at a sample history: after syncing with the editor on document 1 and
then with the editor on document 2, the view exists, the window is enabled and
the view is bound to the tracked editor's document. -/
theorem C1_secondary_view_invariant_witness :
    ∃ v, (run (PreviewEditorWindow.init true) sampleHistory).m_docView = some v ∧
      ((run (PreviewEditorWindow.init true) sampleHistory).m_isEnabled = true ∧
        ∃ a, (run (PreviewEditorWindow.init true) sampleHistory).m_relatedEditor
            = some a ∧
          v.editor.document = sampleDocumentOf a) := by
  have hsome :
      ((run (PreviewEditorWindow.init true) sampleHistory).m_docView).isSome = true := by
    decide
  obtain ⟨v, hv⟩ := Option.isSome_iff_exists.1 hsome
  refine ⟨v, hv, (C1_secondary_view_invariant sampleDocumentOf).1 true
    sampleHistory ?_ v hv⟩
  intro s hs
  simp only [sampleHistory, List.mem_cons, List.mem_singleton, List.not_mem_nil,
    or_false] at hs
  rcases hs with rfl | rfl
  · refine ⟨?_, ?_, ?_⟩
    · intro e he; cases he
    · intro e he; cases he
    · intro e he; cases he; decide
  · refine ⟨?_, ?_, ?_⟩
    · intro e he; cases he
    · intro e he; cases he
    · intro e he; cases he; decide

/-- C2 at a sample input: three calls on a disabled window that still shows
a view. -/
theorem C2_disabled_never_constructs_or_opens_witness :
    sampleDisabledWindow.m_isEnabled = false ∧
    (updateUsingEditorSeq sampleDisabledWindow
      [(sampleHost, some (samplePrimary 3)), (sampleHost, none),
        (sampleHost, some sampleOtherPrimary)]).m_docView = none ∧
    (updateUsingEditorSeq sampleDisabledWindow
      [(sampleHost, some (samplePrimary 3)), (sampleHost, none),
        (sampleHost, some sampleOtherPrimary)]).visible = false :=
  ⟨rfl,
    ((C2_disabled_never_constructs_or_opens sampleDisabledWindow
      [(sampleHost, some (samplePrimary 3)), (sampleHost, none),
        (sampleHost, some sampleOtherPrimary)] rfl).2.2.2 3 (by decide)
          (by decide)).1,
    ((C2_disabled_never_constructs_or_opens sampleDisabledWindow
      [(sampleHost, some (samplePrimary 3)), (sampleHost, none),
        (sampleHost, some sampleOtherPrimary)] rfl).2.2.2 3 (by decide)
          (by decide)).2.1⟩

/-- C4 at a sample input: a fresh enabled window synced with the editor on
document 1, layer 4, frame 3, play button off. -/
theorem C4_static_mirror_witness :
    ∃ v, (updateUsingEditor sampleHost sampleWindow
        (some (samplePrimary 3))).m_docView = some v ∧
      v.editor.document = some 1 ∧ v.editor.isPlaying = false ∧
      v.editor.layer = some 4 ∧ v.editor.frame = 3 :=
  (C4_static_mirror sampleHost sampleWindow (samplePrimary 3) rfl rfl rfl).1

/-- C5 at the sample scenario: play-once is set, a first sync at frame 5
(tag 1, frames 0-9) started playback from frame 5; a later sync at frame 12
(tag 2) stops, sets frame 12 and plays again, with `m_refFrame = 12`. -/
theorem C5_restart_on_tag_change_witness :
    (sampleSyncedWindow.m_refFrame = 5 ∧
      sampleSyncedWindow.m_docView.map (fun v => v.editor.state)
        = some (some (.play true)) ∧
      sampleSyncedWindow.m_docView.map (fun v => v.editor.frame) = some 5) ∧
    (updateUsingEditor sampleHost sampleSyncedWindow
      (some (samplePrimary 12))).m_refFrame = 12 ∧
    callLog sampleSyncedWindow (updateUsingEditor sampleHost sampleSyncedWindow
      (some (samplePrimary 12)))
      = [.centerInSpritePoint ⟨25, 40⟩, .stop, .setFrame 12, .play true] :=
  ⟨by decide,
    (C5_restart_on_tag_change sampleHost sampleSyncedWindow (samplePrimary 12)
      (by decide) (by decide) (by decide) (by decide)).2.1,
    by decide⟩

/-- C6 at a sample input: a window bound to document 1 is synced with the
editor on document 2. -/
theorem C6_single_destroy_construct_witness :
    ∃ post, callLog (updateUsingEditor sampleHost sampleWindow (some (samplePrimary 3)))
        (updateUsingEditor sampleHost
          (updateUsingEditor sampleHost sampleWindow (some (samplePrimary 3)))
          (some sampleOtherPrimary)) =
        [] ++ [.removeObserver, .deleteDocView] ++ [.newDocumentView (some 2)] ++ post ∧
      ∀ e ∈ post, e ≠ .removeObserver ∧ e ≠ .deleteDocView ∧
        ∀ d, e ≠ .newDocumentView d :=
  (C6_single_destroy_construct.1 sampleHost
    (updateUsingEditor sampleHost sampleWindow (some (samplePrimary 3)))
    sampleOtherPrimary (by decide) (by decide)).1
    (Or.inr ⟨_, rfl, by decide⟩)

/-- C7 at a sample input: a fresh window (center button selected) synced with
an editor whose visible bounds are `(10, 20, 31, 41)` is centred at
`(25, 40)` by exactly one call. -/
theorem C7_centering_witness :
    (callLog sampleWindow (updateUsingEditor sampleHost sampleWindow
      (some (samplePrimary 3)))).count (.centerInSpritePoint ⟨25, 40⟩) = 1 :=
  ((C7_centering sampleHost sampleWindow (samplePrimary 3) rfl rfl).1
    (Or.inl rfl)).1

/-- C8 at sample inputs: the theme's close button disables the window and
releases the view; a null source leaves the window as it was. -/
theorem C8_onClose_witness :
    ((onClose sampleHost
        (updateUsingEditor sampleHost sampleWindow (some (samplePrimary 3)))
        (some ⟨true, 7⟩)).m_isEnabled = false ∧
      (onClose sampleHost
        (updateUsingEditor sampleHost sampleWindow (some (samplePrimary 3)))
        (some ⟨true, 7⟩)).m_docView = none) ∧
    onClose sampleHost sampleDisabledWindow none = sampleDisabledWindow :=
  ⟨⟨((C8_onClose sampleHost _ (some ⟨true, 7⟩)).1 ⟨_, rfl, rfl, rfl⟩).1,
      ((C8_onClose sampleHost _ (some ⟨true, 7⟩)).1 ⟨_, rfl, rfl, rfl⟩).2.1⟩,
    ((C8_onClose sampleHost sampleDisabledWindow none).2.1 (Or.inl rfl)).2.2⟩

/-- C9 at sample inputs: a playing button with capture receives a right-button
mouse-up; a button without capture receives one too. -/
theorem C9_playButton_mouseUp_witness :
    MiniPlayButton.onProcessMessage sampleBase
        { m_isPlaying := true, parts := .stopButton, selected := true,
          hasCapture := true } (.mouseUp true) =
      ({ m_isPlaying := true, parts := .stopButton, selected := false,
          hasCapture := false },
        [.releaseMouse, .popup, .setSelected false], true) ∧
    ButtonEffect.popup ∉
      (MiniPlayButton.onProcessMessage sampleBase MiniPlayButton.init
        (.mouseUp true)).2.1 :=
  ⟨((C9_playButton_mouseUp sampleBase
      { m_isPlaying := true, parts := .stopButton, selected := true,
        hasCapture := true }).1 rfl).1,
    ((C9_playButton_mouseUp sampleBase MiniPlayButton.init).2 true
      (Or.inr rfl)).2.1⟩

/-- C10 at sample inputs: a notification from a navigating editor stops the
play button; one from a playing editor leaves it playing. -/
theorem C10_onStateChanged_witness :
    (onStateChanged samplePlayingWindow (samplePrimary 3)).m_playButton.isPlaying
      = false ∧
    (onStateChanged samplePlayingWindow
      { samplePrimary 3 with state := some (.play true) }).m_playButton
      = samplePlayingWindow.m_playButton :=
  ⟨((C10_onStateChanged samplePlayingWindow (samplePrimary 3)).1
      (by intro once hs; cases hs)).1,
    (C10_onStateChanged samplePlayingWindow
      { samplePrimary 3 with state := some (.play true) }).2.1 ⟨true, rfl⟩⟩

end PreviewEditor
